import Mathlib

/-!
Verification of the `django-copyist` copy engine (`django_copyist/copyist.py`)
against its natural-language specification.

The Python source is shallowly embedded in Lean:
* Python `dict`s become association lists (`List (κ × α)`) with
  insertion-order semantics and dict-style (order-insensitive) equality;
* Django model instances become `Entity` records mapping field names to
  lists of numeric values (an empty list models `NULL` / no related rows,
  a singleton models a scalar or foreign-key value, a longer list models
  the value set of a to-many relation);
* Django `Q` objects become the `QExpr` AST with Django's combination
  semantics (combining with the empty `Q()` returns the other operand,
  `bool (Q()) = False`);
* the database becomes a `Store`: ordered rows per model name, a fresh
  primary-key counter, and a constraint oracle deciding whether a row can
  be inserted (`bulk_create` raises `IntegrityError` when the oracle
  rejects a row);
* Python exceptions become explicit error values threaded through a
  state-with-errors monad in which mutations performed before a raise are
  retained, exactly as in Python.

Maps are keyed by the numeric primary keys themselves; the Python code
keys the same maps by `str(pk)`, which is an injective renaming.
-/

set_option synthInstance.maxSize 1024

namespace DjangoCopyist

/-! ## Association-list dictionaries (embedding of Python `dict`) -/

/-- Lookup in an association list, first match wins (Python dicts keep a
single binding per key; the maps built by the engine never hold duplicate
keys, and first-match lookup coincides with dict lookup there). -/
def dictLookup {κ α : Type} [BEq κ] (m : List (κ × α)) (k : κ) : Option α :=
  match m with
  | [] => none
  | (k', v) :: rest => if k == k' then some v else dictLookup rest k

/-- Embedding of Python dict assignment `m[k] = v`: replaces the value of
an existing key in place, otherwise appends the new binding (insertion
order preserved, as in Python). -/
def dictInsert {κ α : Type} [BEq κ] (m : List (κ × α)) (k : κ) (v : α) :
    List (κ × α) :=
  match m with
  | [] => [(k, v)]
  | (k', v') :: rest =>
    if k == k' then (k, v) :: rest else (k', v') :: dictInsert rest k v

/-- Python dict equality: order-insensitive comparison of key/value
bindings (values compared by the supplied test). -/
def dictEqBy {κ α : Type} [BEq κ] (eq : α → α → Bool)
    (a b : List (κ × α)) : Bool :=
  a.all (fun p =>
    match dictLookup b p.1 with
    | some v => eq p.2 v
    | none => false) &&
  b.all (fun p =>
    match dictLookup a p.1 with
    | some v => eq p.2 v
    | none => false)

/-! ## The resolution-snapshot map types (copyist.py lines 27–31) -/

/-- `FieldSetToFilterMap = dict[str, Optional[str]]`: origin referenced id
to substitute id or `None`. -/
abbrev FieldSetToFilterMap := List (Nat × Option Nat)

/-- Inner layer of `SetToFilterMap`: field name to `FieldSetToFilterMap`. -/
abbrev ModelFieldMaps := List (String × FieldSetToFilterMap)

/-- `SetToFilterMap = dict[str, dict[str, FieldSetToFilterMap]]`. -/
abbrev SetToFilterMap := List (String × ModelFieldMaps)

/-- `IgnoredMap = dict[str, list[Any]]`: model name to list of ignored
primary keys.  Dict values are Python lists, compared positionally. -/
abbrev IgnoredMap := List (String × List Nat)

/-- `ValidationAffectedMap = dict[str, list[Any]]`. -/
abbrev ValidationAffectedMap := List (String × List Nat)

/-- `OutputMap = dict[str, dict[str, Any]]`: model name to
(origin pk → copied pk). -/
abbrev OutputMap := List (String × List (Nat × Nat))

/-- Python `==` on two `SetToFilterMap` values: nested dict equality. -/
def setToFilterMapEq (a b : SetToFilterMap) : Bool :=
  dictEqBy (dictEqBy (dictEqBy (· == ·))) a b

/-- Python `==` on two `IgnoredMap` values: dict equality with list
values compared positionally. -/
def ignoredMapEq (a b : IgnoredMap) : Bool :=
  dictEqBy (· == ·) a b

/-! ## Abort reasons (copy_request.py `AbortReason`) -/

/-- The four abort reasons of `AbortReason` in `copy_request.py`. -/
inductive AbortReason where
  | NOT_MATCHED
  | IGNORED
  | DATA_CHANGED_STF
  | DATA_CHANGED_IGNORED
deriving DecidableEq, Repr

/-! ## Confirmation gate (copyist.py lines 1186–1231) -/

/-- `Copyist._is_missing_values_in_set_to_filter_map`: true iff some leaf
value of the nested map is `None`. -/
def isMissingValuesInSetToFilterMap (m : SetToFilterMap) : Bool :=
  m.any (fun group => group.2.any (fun fieldMap =>
    fieldMap.2.any (fun kv => kv.2.isNone)))

/-- The abort reason computed by `Copyist._check_should_abort`
(copyist.py lines 1202–1223): `abort_reason` starts as `None`, the
set-to-filter block may set it, and the ignored block may overwrite it. -/
def gateAbortReason (confirmWrite : Bool)
    (priorStf : Option SetToFilterMap) (priorIgnored : Option IgnoredMap)
    (stf : SetToFilterMap) (ignored : IgnoredMap) : Option AbortReason :=
  let afterStf : Option AbortReason :=
    if isMissingValuesInSetToFilterMap stf then
      if !confirmWrite then some .NOT_MATCHED
      else if (match priorStf with
                | some prior => !setToFilterMapEq prior stf
                | none => false) then
        some .DATA_CHANGED_STF
      else none
    else none
  if !ignored.isEmpty then
    if !confirmWrite then some .IGNORED
    else if (match priorIgnored with
              | some prior => !ignoredMapEq prior ignored
              | none => false) then
      some .DATA_CHANGED_IGNORED
    else afterStf
  else afterStf

/-- The claim's §4.4 decision table, transcribed as written (including the
row `| * | yes | true | yes/absent | proceed |`): the function a correct
gate would compute according to the claim under check.  `none` means
proceed. -/
def claimedGateOutcome (confirmWrite : Bool)
    (priorStf : Option SetToFilterMap) (priorIgnored : Option IgnoredMap)
    (stf : SetToFilterMap) (ignored : IgnoredMap) : Option AbortReason :=
  let unresolved := isMissingValuesInSetToFilterMap stf
  let stfDrift := match priorStf with
    | some prior => !setToFilterMapEq prior stf
    | none => false
  let ignDrift := match priorIgnored with
    | some prior => !ignoredMapEq prior ignored
    | none => false
  if ignored.isEmpty then
    if !unresolved then none
    else if !confirmWrite then some .NOT_MATCHED
    else if stfDrift then some .DATA_CHANGED_STF
    else none
  else
    if !confirmWrite then some .IGNORED
    else if ignDrift then some .DATA_CHANGED_IGNORED
    else none

/-- The decision table amended to what the code computes: in the row
`| * | yes | true | yes/absent |` the gate proceeds only when the
reference-map columns do not themselves demand a DATA_CHANGED abort; an
undetected set-to-filter drift there survives the ignored block. -/
def amendedGateOutcome (confirmWrite : Bool)
    (priorStf : Option SetToFilterMap) (priorIgnored : Option IgnoredMap)
    (stf : SetToFilterMap) (ignored : IgnoredMap) : Option AbortReason :=
  let unresolved := isMissingValuesInSetToFilterMap stf
  let stfDrift := match priorStf with
    | some prior => !setToFilterMapEq prior stf
    | none => false
  let ignDrift := match priorIgnored with
    | some prior => !ignoredMapEq prior ignored
    | none => false
  if ignored.isEmpty then
    if !unresolved then none
    else if !confirmWrite then some .NOT_MATCHED
    else if stfDrift then some .DATA_CHANGED_STF
    else none
  else
    if !confirmWrite then some .IGNORED
    else if ignDrift then some .DATA_CHANGED_IGNORED
    else if unresolved && stfDrift then some .DATA_CHANGED_STF
    else none

/-! ## Python exceptions -/

/-- The exceptions raised (or propagated) by the engine.  `integrityError`
carries the model name whose `bulk_create` violated a constraint and
`outOfFuel` never occurs (kept only so that every `match` is total). -/
inductive PyErr where
  | valueError (msg : String)
  | runtimeError (msg : String)
  | attributeError (msg : String)
  | keyError
  | typeError (msg : String)
  | notImplementedError (msg : String)
  | integrityError (model : String)
deriving DecidableEq, Repr

/-! ## Entities and field valuations

A Django model instance is embedded as a primary key together with a
valuation of lookup paths: each binding maps a field name (or a deeper
`__`-joined lookup path, as used by ignore filters) to the list of numeric
values reachable under it.  An empty list models SQL `NULL` (or an empty
related set), a singleton models a scalar or foreign-key column, a longer
list models a to-many relation.  A path absent from the list models an
attribute that does not exist on the model at all. -/

structure Entity where
  pk : Nat
  fields : List (String × List Nat)
deriving DecidableEq, Repr

/-- Field access as used by query filters: the special name `id` denotes
the primary key and an unknown path gives the empty (NULL) value. -/
def getAttr (e : Entity) (f : String) : List Nat :=
  if f == "id" then [e.pk] else (dictLookup e.fields f).getD []

/-- Scalar read of a (foreign-key id or plain) column: the head of the
valuation, `none` for NULL. -/
def getScalar (e : Entity) (f : String) : Option Nat :=
  (getAttr e f).head?

/-! ## Django `Q` objects -/

/-- AST of the `Q` expressions the engine builds.  `qIn f ids` embeds
`Q(**{f + "__in": ids})`, `qEqVal f v` embeds `Q(**{f: v})`,
`qEqNull f` embeds `Q(**{f: None})` ("IS NULL" / no related row), and
`qEmpty` is the empty `Q()`. -/
inductive QExpr where
  | qEmpty
  | qAnd (a b : QExpr)
  | qOr (a b : QExpr)
  | qNot (a : QExpr)
  | qIn (fieldName : String) (ids : List Nat)
  | qEqVal (fieldName : String) (v : Nat)
  | qEqNull (fieldName : String)
deriving DecidableEq, Repr

/-- Django `bool(q)`: the empty `Q()` is falsy, every other node truthy. -/
def qTruthy : QExpr → Bool
  | .qEmpty => false
  | _ => true

/-- Django `Q.__and__`: combining with the empty `Q()` returns the other
operand unchanged. -/
def qand : QExpr → QExpr → QExpr
  | .qEmpty, b => b
  | a, .qEmpty => a
  | a, b => .qAnd a b

/-- Django `Q.__or__`: combining with the empty `Q()` returns the other
operand unchanged. -/
def qor : QExpr → QExpr → QExpr
  | .qEmpty, b => b
  | a, .qEmpty => a
  | a, b => .qOr a b

/-- Evaluation of a `Q` filter against one entity's valuation. -/
def evalQ (q : QExpr) (e : Entity) : Bool :=
  match q with
  | .qEmpty => true
  | .qAnd a b => evalQ a e && evalQ b e
  | .qOr a b => evalQ a e || evalQ b e
  | .qNot a => !(evalQ a e)
  | .qIn f ids => (getAttr e f).any (fun v => ids.contains v)
  | .qEqVal f v => (getAttr e f).contains v
  | .qEqNull f => (getAttr e f).isEmpty

/-- Builds the `Q` for a raw keyword key as Django parses it: a key ending
in `__in` is the membership lookup on the prefix path (ignore-filter
names such as `path_nodes__node__in` carry the suffix in the config).
The suffix test and strip (`key.endswith("__in")` / `key[:-4]`) are
written over the character list, with the same result as
`key.endsWith "__in"` and `key.dropRight 4`. -/
def qForRawKey (key : String) (ids : List Nat) : QExpr :=
  match key.data.reverse with
  | 'n' :: 'i' :: '_' :: '_' :: _ =>
    .qIn (String.mk (key.data.take (key.data.length - 4))) ids
  | _ => .qIn key ids

/-! ## The store (database) -/

/-- The relational store: ordered rows per model name plus the next fresh
primary key handed out by inserts.  Constraint checking is supplied
separately (`InsertOracle`) so that stores stay comparable by `=`. -/
structure Store where
  models : List (String × List Entity)
  nextPk : Nat
deriving DecidableEq, Repr

/-- Rows of one model, in storage order. -/
def Store.rows (s : Store) (model : String) : List Entity :=
  (dictLookup s.models model).getD []

/-- `model.objects.filter(pred)` as a list. -/
def Store.filterRows (s : Store) (model : String) (pred : Entity → Bool) :
    List Entity :=
  (s.rows model).filter pred

/-- Decides whether a row (given as its field data) may be inserted into a
model's table: the embedding of the database constraints whose violation
makes `bulk_create` raise `IntegrityError`. -/
abbrev InsertOracle := String → List (String × List Nat) → Bool

/-- `model.objects.bulk_create(rows)`: assigns fresh primary keys and
inserts all rows, or raises `IntegrityError` inserting none of them (one
statement) when the oracle rejects some row. -/
def Store.bulkCreate (s : Store) (oracle : InsertOracle) (model : String)
    (rowsData : List (List (String × List Nat))) :
    Except PyErr (Store × List Entity) :=
  if rowsData.all (fun r => oracle model r) then
    let created := (List.range rowsData.length).zip rowsData |>.map
      (fun p => Entity.mk (s.nextPk + p.1) p.2)
    let store' : Store :=
      { models := dictInsert s.models model (s.rows model ++ created)
        nextPk := s.nextPk + rowsData.length }
    .ok (store', created)
  else
    .error (.integrityError model)

/-- `model.objects.filter(pred).delete()`. -/
def Store.deleteRows (s : Store) (model : String) (pred : Entity → Bool) :
    Store :=
  { s with
    models := dictInsert s.models model ((s.rows model).filter (fun e => !pred e)) }

/-! ## Configuration tree (django_copyist/config.py, shapes taken from its
use in copyist.py and in the example configs) -/

/-- `CopyActions` from django_copyist/config.py. -/
inductive CopyActions where
  | TAKE_FROM_ORIGIN
  | TAKE_FROM_INPUT
  | MAKE_COPY
  | UPDATE_TO_COPIED
  | SET_TO_FILTER
deriving DecidableEq, Repr

/-- `FilterSource` from django_copyist/config.py. -/
inductive FilterSource where
  | FROM_INPUT
  | FROM_ORIGIN
deriving DecidableEq, Repr

/-- `FieldFilterConfig`: one declarative match key of a `SET_TO_FILTER`
field (`key` is the input-data key for `FROM_INPUT`). -/
structure FieldFilterConfig where
  source : FilterSource
  key : String := ""
deriving DecidableEq, Repr

/-- `DataModificationActions` from django_copyist/config.py. -/
inductive DataModificationActions where
  | DELETE_BY_FILTER
  | EXECUTE_FUNC
deriving DecidableEq, Repr

/-- Input parameters of a request (`input_data`), name to numeric value. -/
abbrev InputData := List (String × Nat)

/-- `M2MCopyIntent` (copyist.py lines 44–65) minus the `__post_init__`
through-model attribute check, which inspects Python class attributes. -/
structure M2MCopyIntent where
  field_name : String
  related_id_list : List Nat
  backward_id_key : String
  forward_id_key : String
  through_model : String
  from_model : String
  to_model : String
  use_copied_related_instances : Bool
  use_set_to_filter_values : Bool
deriving DecidableEq, Repr

/-- `CopyIntent` (copyist.py lines 68–85). -/
structure CopyIntent where
  origin : Entity
  copy_data : List (String × List Nat) := []
  m2m_copy_intent_list : List M2MCopyIntent := []
  copied : Option Entity := none
deriving DecidableEq, Repr

/-- A custom data-modification hook: receives the input data, the
set-to-filter map, the output map and (for post-copy steps) the node's
copy intents, and transforms the store.  The Python original also
receives the `ModelCopyConfig`; that argument is dropped here because a
config-consuming function cannot occur inside the config inductive. -/
abbrev StepFunc :=
  InputData → SetToFilterMap → OutputMap → List CopyIntent → Store → Store

/-- `DataModificationStep` / `DataPreparationStep` / `PostcopyStep`. -/
structure DataModificationStep where
  action : DataModificationActions
  filter_field_to_input_key : List (String × String) := []
  func : Option StepFunc := none

/-- A custom `SET_TO_FILTER` matching function (`filter_func`): receives
the store (it may query freely), the input data, the field name, the
scope instances, the referenced instances and the accumulated map, and
returns the field's reference map.  The `model_config` and
`field_copy_config` arguments of the Python signature are dropped (see
`StepFunc`). -/
abbrev FilterFunc :=
  Store → InputData → String → List Entity → List Entity → SetToFilterMap →
    FieldSetToFilterMap

/-- `FilterConfig`: declarative filters or a custom function. -/
structure FilterConfig where
  filters : List (String × FieldFilterConfig) := []
  filter_func : Option FilterFunc := none

/-- `IgnoreFilterSource` (only one member is used by the engine). -/
inductive IgnoreFilterSource where
  | UNMATCHED_SET_TO_FILTER_VALUES
deriving DecidableEq, Repr

/-- `IgnoreFilter`: one condition of an ignore rule. -/
structure IgnoreFilter where
  filter_name : String
  filter_source : IgnoreFilterSource := .UNMATCHED_SET_TO_FILTER_VALUES
  set_to_filter_origin_model : String
  set_to_filter_field_name : String
deriving DecidableEq, Repr

/-- A custom ignore function (`ignore_func`): receives the store, the
set-to-filter map, the node's extra filter, the accumulated ignored map
and the input data, and returns the entities to ignore. -/
abbrev IgnoreFunc :=
  Store → SetToFilterMap → Option QExpr → IgnoredMap → InputData →
    List Entity

/-- `IgnoreCondition`. -/
structure IgnoreCondition where
  filter_conditions : List IgnoreFilter := []
  ignore_func : Option IgnoreFunc := none

/-- The relation metadata Django derives at run time from the model class
attribute (`getattr(model, field_name)`).  The embedding resolves the
descriptor once per configured field: the through model of a many-to-many
field together with its two id columns (`backward` pointing at the model
owning the field, `forward` at the related model), already oriented the
way `_evaluate_m2m_field_values` orients them from `field_link.reverse`. -/
structure M2MDescriptor where
  through_model : String
  backward_id_key : String
  forward_id_key : String
  related_model : String
deriving DecidableEq, Repr

/-- Embedding of the Django field descriptor for one configured field. -/
inductive FieldDescriptor where
  /-- a plain (non-relational) column -/
  | scalarField
  /-- `ForwardManyToOneDescriptor`: fk with id column `attname`
  (`f"{field_name}_id"`), its nullability and target model -/
  | forwardFK (attname : String) (nullable : Bool) (related_model : String)
  /-- `ManyToManyDescriptor` -/
  | manyToMany (d : M2MDescriptor)
  /-- `ReverseManyToOneDescriptor`: reverse side of a child's fk whose id
  column on the child is `child_attname` -/
  | reverseFK (child_attname : String) (child_model : String)
deriving DecidableEq, Repr

/-- The non-recursive part of `FieldCopyConfig`: everything except the
nested `copy_with_config`.  `descr` is the field's resolved Django
descriptor (`none` embeds an attribute missing from the model class). -/
structure FieldCopyConfigBase where
  action : CopyActions
  reference_to : String := ""
  filter_config : FilterConfig := {}
  input_key : String := ""
  descr : Option FieldDescriptor := none

/-- `ModelCopyConfig`.  A field copy action is the pair of its
`FieldCopyConfigBase` and its optional nested `copy_with_config`;
`static_filters` embeds the always-applied extra predicate of the config
(spec §3, "optional static predicate always applied"). -/
inductive ModelCopyConfig where
  | mk (model : String)
       (filter_field_to_input_key : List (String × String))
       (static_filters : QExpr)
       (field_copy_actions :
         List (String × FieldCopyConfigBase × Option ModelCopyConfig))
       (compound_copy_actions : List ModelCopyConfig)
       (ignore_condition : Option IgnoreCondition)
       (data_preparation_steps : List DataModificationStep)
       (postcopy_steps : List DataModificationStep)

def ModelCopyConfig.model : ModelCopyConfig → String
  | .mk m _ _ _ _ _ _ _ => m

def ModelCopyConfig.filter_field_to_input_key :
    ModelCopyConfig → List (String × String)
  | .mk _ k _ _ _ _ _ _ => k

def ModelCopyConfig.static_filters : ModelCopyConfig → QExpr
  | .mk _ _ s _ _ _ _ _ => s

def ModelCopyConfig.field_copy_actions :
    ModelCopyConfig →
      List (String × FieldCopyConfigBase × Option ModelCopyConfig)
  | .mk _ _ _ f _ _ _ _ => f

def ModelCopyConfig.compound_copy_actions :
    ModelCopyConfig → List ModelCopyConfig
  | .mk _ _ _ _ c _ _ _ => c

def ModelCopyConfig.ignore_condition : ModelCopyConfig → Option IgnoreCondition
  | .mk _ _ _ _ _ i _ _ => i

def ModelCopyConfig.data_preparation_steps :
    ModelCopyConfig → List DataModificationStep
  | .mk _ _ _ _ _ _ d _ => d

def ModelCopyConfig.postcopy_steps : ModelCopyConfig → List DataModificationStep
  | .mk _ _ _ _ _ _ _ p => p

/-- `CopyistConfig` (copyist.py lines 88–94). -/
structure CopyistConfig where
  model_configs : List ModelCopyConfig

/-- `IgnoreEvaluation` (copyist.py lines 97–104). -/
structure IgnoreEvaluation where
  model_config : ModelCopyConfig
  original_extra_filter : Option QExpr

/-- `CopyRequest` (copy_request.py). -/
structure CopyRequest where
  input_data : InputData
  config : CopyistConfig
  confirm_write : Bool := false
  set_to_filter_map : Option SetToFilterMap := none
  ignored_map : Option IgnoredMap := none

/-- `CopyResult` (copy_request.py). -/
structure CopyResult where
  is_copy_successful : Bool
  output_map : Option OutputMap
  ignored_map : IgnoredMap
  set_to_filter_map : SetToFilterMap
  reason : Option AbortReason := none
deriving DecidableEq, Repr

/-- The `Copyist` instance: the request plus the four mutable attributes
initialised to `None` by `__init__` (copyist.py lines 107–116; the
leading underscores of the Python attribute names are rendered `mut_`). -/
structure CopyistState where
  request : CopyRequest
  mut_set_to_filter_map : Option SetToFilterMap := none
  mut_validation_affected_map : Option ValidationAffectedMap := none
  mut_ignored_map : Option IgnoredMap := none
  mut_ignore_conditions_to_resolve : Option (List IgnoreEvaluation) := none

/-- `Copyist.__init__`. -/
def copyistInit (copy_request : CopyRequest) : CopyistState :=
  { request := copy_request }

/-- The `set_to_filter_map` property (copyist.py lines 118–122):
`AttributeError` before validation has stored the map. -/
def CopyistState.set_to_filter_map (cs : CopyistState) :
    Except PyErr SetToFilterMap :=
  match cs.mut_set_to_filter_map with
  | none => .error (.attributeError "set_to_filter_map referenced before validation")
  | some m => .ok m

/-- The `validation_affected_map` property (copyist.py lines 124–128). -/
def CopyistState.validation_affected_map (cs : CopyistState) :
    Except PyErr ValidationAffectedMap :=
  match cs.mut_validation_affected_map with
  | none => .error (.attributeError "validation_affected_map referenced before validation")
  | some m => .ok m

/-- The `ignored_map` property (copyist.py lines 130–134). -/
def CopyistState.ignored_map (cs : CopyistState) : Except PyErr IgnoredMap :=
  match cs.mut_ignored_map with
  | none => .error (.attributeError "ignored_map referenced before validation")
  | some m => .ok m

/-! ## Selection queries -/

/-- Modelled from the spec: `get_queryset_for_model_config` lives in
`django_copyist/config.py`, which is not among the provided sources.  Per
spec §4.3 step (1) and §6 it selects the node's scope entities: the root
predicate built from `filter_field_to_input_key` over the input
parameters, combined with the node's static filters and any inherited
extra filter. -/
def get_queryset_for_model_config (store : Store) (input_data : InputData)
    (model_config : ModelCopyConfig) (extra_filters : Option QExpr) :
    List Entity :=
  store.filterRows model_config.model (fun e =>
    model_config.filter_field_to_input_key.all (fun p =>
      match dictLookup input_data p.2 with
      | some v => getAttr e p.1 == [v]
      | none => (getAttr e p.1).isEmpty) &&
    evalQ model_config.static_filters e &&
    (match extra_filters with
     | some q => evalQ q e
     | none => true))

/-- `Copyist._get_instances_for_model_config` (copyist.py lines 140–149). -/
def get_instances_for_model_config (store : Store) (input_data : InputData)
    (model_config : ModelCopyConfig) (extra_filters : Option QExpr) :
    List Entity :=
  get_queryset_for_model_config store input_data model_config extra_filters

/-! ## Reference resolver (copyist.py lines 151–337) -/

/-- `Copyist._get_referenced_instance_list` (lines 151–204): the entities
the configured field actually references from the given scope instances. -/
def get_referenced_instance_list (store : Store)
    (model_config : ModelCopyConfig) (field_name : String)
    (field_copy_config : FieldCopyConfigBase)
    (instance_list : List Entity) : Except PyErr (List Entity) :=
  match field_copy_config.descr with
  | none =>
    .error (.valueError ("Field " ++ field_name ++ " was declared in " ++
      model_config.model ++ " config, but not present on model"))
  | some (.manyToMany d) =>
    let instance_id_list := instance_list.map (·.pk)
    let throughRows := store.rows d.through_model
    .ok (store.filterRows field_copy_config.reference_to (fun r =>
      throughRows.any (fun t =>
        getScalar t d.forward_id_key == some r.pk &&
        (match getScalar t d.backward_id_key with
         | some b => instance_id_list.contains b
         | none => false))))
  | some (.forwardFK attname _ _) =>
    let referenced_id_values := instance_list.map (fun i => getScalar i attname)
    .ok (store.filterRows field_copy_config.reference_to (fun r =>
      referenced_id_values.contains (some r.pk)))
  | some _ =>
    .error (.valueError ("Expected ForeignKeyField or ManyToManyField field on "
      ++ field_name ++ " for SET_TO_FILTER config"))

/-- The predicates accrued by `Copyist._get_substitute_instance_list`
(lines 206–236) while walking the declarative filters, with the
`ValueError` raised when a `FROM_INPUT` value is missing or falsy. -/
def substitute_filters (input_data : InputData)
    (referenced_instance_list : List Entity) :
    List (String × FieldFilterConfig) →
      Except PyErr (List (Entity → Bool))
  | [] => .ok []
  | (filter_field_name, filter_config) :: rest =>
    match filter_config.source with
    | .FROM_INPUT =>
      match dictLookup input_data filter_config.key with
      | none =>
        .error (.valueError ("Filter " ++ filter_field_name ++
          " was declared, but value for " ++ filter_config.key ++
          " not found in input_data"))
      | some filter_value =>
        if filter_value == 0 then
          .error (.valueError ("Filter " ++ filter_field_name ++
            " was declared, but value for " ++ filter_config.key ++
            " not found in input_data"))
        else
          (substitute_filters input_data referenced_instance_list rest).map
            (fun ps => (fun e => getAttr e filter_field_name == [filter_value]) :: ps)
    | .FROM_ORIGIN =>
      let shared_values :=
        referenced_instance_list.map (fun i => getAttr i filter_field_name)
      (substitute_filters input_data referenced_instance_list rest).map
        (fun ps => (fun e => shared_values.contains (getAttr e filter_field_name)) :: ps)

/-- `Copyist._get_substitute_instance_list` (lines 206–236): all
destination candidates passing the declarative filters. -/
def get_substitute_instance_list (store : Store) (input_data : InputData)
    (field_copy_config : FieldCopyConfigBase)
    (referenced_instance_list : List Entity) : Except PyErr (List Entity) :=
  (substitute_filters input_data referenced_instance_list
      field_copy_config.filter_config.filters).map
    (fun ps => store.filterRows field_copy_config.reference_to
      (fun e => ps.all (fun p => p e)))

/-- `Copyist._match_referenced_with_substitutes` (lines 238–282): for each
referenced instance, the first substitute whose `FROM_ORIGIN` filter
fields all equal the referenced instance's values, else `None`. -/
def match_referenced_with_substitutes
    (field_copy_config : FieldCopyConfigBase)
    (referenced_instance_list substitute_instance_list : List Entity) :
    FieldSetToFilterMap :=
  let take_from_origin_filters :=
    field_copy_config.filter_config.filters.filter
      (fun p => p.2.source == FilterSource.FROM_ORIGIN)
  referenced_instance_list.foldl (fun acc referenced_instance =>
    let substitute_conditions := take_from_origin_filters.map
      (fun p => (p.1, getAttr referenced_instance p.1))
    match substitute_instance_list.find? (fun i =>
        substitute_conditions.all (fun c => getAttr i c.1 == c.2)) with
    | some substitute_instance =>
      dictInsert acc referenced_instance.pk (some substitute_instance.pk)
    | none => dictInsert acc referenced_instance.pk none) []

/-- `Copyist._get_field_set_to_filter_map_for_filters` (lines 284–299). -/
def get_field_set_to_filter_map_for_filters (store : Store)
    (input_data : InputData) (field_copy_config : FieldCopyConfigBase)
    (referenced_instance_list : List Entity) :
    Except PyErr FieldSetToFilterMap :=
  match get_substitute_instance_list store input_data field_copy_config
      referenced_instance_list with
  | .error e => .error e
  | .ok substitute_instance_list =>
    .ok (match_referenced_with_substitutes field_copy_config
      referenced_instance_list substitute_instance_list)

/-- The nested-map write of `_execute_set_to_filter_config_validation`
(lines 333–337): `if model not in map: map[model] = {}` followed by
`map[model][field] = field_map`. -/
def stfSetField (set_to_filter_map : SetToFilterMap) (model field : String)
    (field_map : FieldSetToFilterMap) : SetToFilterMap :=
  let group := (dictLookup set_to_filter_map model).getD []
  dictInsert set_to_filter_map model (dictInsert group field field_map)

/-- `Copyist._execute_set_to_filter_config_validation` (lines 301–337). -/
def execute_set_to_filter_config_validation (store : Store)
    (input_data : InputData) (model_config : ModelCopyConfig)
    (field_name : String) (field_copy_config : FieldCopyConfigBase)
    (set_to_filter_map : SetToFilterMap) (instance_list : List Entity) :
    Except PyErr SetToFilterMap :=
  match get_referenced_instance_list store model_config field_name
      field_copy_config instance_list with
  | .error e => .error e
  | .ok referenced_instance_list =>
    let field_map? : Except PyErr FieldSetToFilterMap :=
      if !field_copy_config.filter_config.filters.isEmpty then
        get_field_set_to_filter_map_for_filters store input_data
          field_copy_config referenced_instance_list
      else
        match field_copy_config.filter_config.filter_func with
        | some f =>
          .ok (f store input_data field_name instance_list
            referenced_instance_list set_to_filter_map)
        | none => .error (.valueError "Incorrect filter config")
    field_map?.map (fun fm =>
      stfSetField set_to_filter_map model_config.model field_name fm)

/-! ## Compound extra filters (copyist.py lines 369–465) -/

/-- The reference target of a configured field, as read back from the
node's `field_copy_actions` dict (`model_config.field_copy_actions[f]`). -/
def field_reference_to (model_config : ModelCopyConfig)
    (field_name : String) : Option String :=
  (model_config.field_copy_actions.find? (fun p => p.1 == field_name)).map
    (fun p => p.2.1.reference_to)

/-- The first loop of `_get_extra_filters_for_compound_actions` (lines
387–406): split the node's `UPDATE_TO_COPIED` reference fields into
non-nullable fk fields and nullable fields (nullable fk or many-to-many),
skipping self-references, with the source's error behaviour for a wrong
descriptor. -/
def partition_compound_fields (model : String) :
    List (String × FieldCopyConfigBase × Option ModelCopyConfig) →
      Except PyErr (List String × List String)
  | [] => .ok ([], [])
  | (field_name, field_copy_config, _) :: rest =>
    if field_copy_config.action != CopyActions.UPDATE_TO_COPIED then
      partition_compound_fields model rest
    else if field_copy_config.reference_to == model then
      partition_compound_fields model rest
    else
      match field_copy_config.descr with
      | none => .error (.attributeError field_name)
      | some (.forwardFK _ true _) =>
        (partition_compound_fields model rest).map (fun p =>
          (p.1, field_name :: p.2))
      | some (.forwardFK _ false _) =>
        (partition_compound_fields model rest).map (fun p =>
          (field_name :: p.1, p.2))
      | some (.manyToMany _) =>
        (partition_compound_fields model rest).map (fun p =>
          (p.1, field_name :: p.2))
      | some _ =>
        .error (.valueError ("Expected m2m or fk on field " ++ field_name ++
          " on model " ++ model))

/-- The affected-id list the compound filter uses for a field: the source
looks up `affected_map.get(field_copy_config.reference_to.__name__)` and
skips the field when the result is `None` or empty. -/
def compound_affected_ids (model_config : ModelCopyConfig)
    (affected_map : ValidationAffectedMap) (field_name : String) :
    List Nat :=
  match field_reference_to model_config field_name with
  | none => []
  | some ref =>
    match dictLookup affected_map ref with
    | none => []
    | some ids => ids

/-- The conjunction loop over a list of fields (lines 408–419 and
423–433): `extra &= Q(field__in=ids) | Q(field=None)` for each field with
a non-empty affected-id list. -/
def compound_conjunction (model_config : ModelCopyConfig)
    (affected_map : ValidationAffectedMap) (field_names : List String)
    (acc : QExpr) : QExpr :=
  field_names.foldl (fun acc field_name =>
    let copied_referenced_id_list :=
      compound_affected_ids model_config affected_map field_name
    if copied_referenced_id_list.isEmpty then acc
    else qand acc (qor (.qIn field_name copied_referenced_id_list)
      (.qEqNull field_name))) acc

/-- The nullable-only disjunction loop (lines 435–461), including the
source's lookup of `model_config.field_copy_actions[field_name]` (the
**current** field) where the surrounding loop variable is `other_field`:
each disjunct constrains every other nullable field with the affected-id
list of the current field's referenced model. -/
def compound_nullable_disjunction (model_config : ModelCopyConfig)
    (affected_map : ValidationAffectedMap)
    (nullable_fields_to_filter : List String) : QExpr :=
  nullable_fields_to_filter.foldl (fun acc field_name =>
    let copied_referenced_id_list :=
      compound_affected_ids model_config affected_map field_name
    if copied_referenced_id_list.isEmpty then acc
    else
      let combination_filter :=
        (nullable_fields_to_filter.filter (fun f => f != field_name)).foldl
          (fun comb other_field =>
            let copied_other_referenced_id_list :=
              compound_affected_ids model_config affected_map field_name
            if copied_other_referenced_id_list.isEmpty then comb
            else qand comb (qor
              (.qIn other_field copied_other_referenced_id_list)
              (.qEqNull other_field)))
          (.qIn field_name copied_referenced_id_list)
      qor acc combination_filter) .qEmpty

/-- `Copyist._get_extra_filters_for_compound_actions` (lines 369–465). -/
def get_extra_filters_for_compound_actions
    (model_config : ModelCopyConfig)
    (affected_map : ValidationAffectedMap) : Except PyErr QExpr :=
  match partition_compound_fields model_config.model
      model_config.field_copy_actions with
  | .error e => .error e
  | .ok (fk_fields_to_filter, nullable_fields_to_filter) =>
    let extra_filters :=
      compound_conjunction model_config affected_map fk_fields_to_filter .qEmpty
    let non_nullable_filters_were_used := qTruthy extra_filters
    if non_nullable_filters_were_used then
      .ok (compound_conjunction model_config affected_map
        nullable_fields_to_filter extra_filters)
    else
      .ok (qand extra_filters (compound_nullable_disjunction model_config
        affected_map nullable_fields_to_filter))

/-! ## Ignore evaluator (copyist.py lines 467–530) -/

/-- The `ignore_filter` accumulation loop of
`_evaluate_ignored_by_filters` (lines 473–487): for every condition whose
unmatched set-to-filter values are non-empty, or the filter
`Q(**{condition.filter_name: unmatched_id_list})` into the accumulator;
`KeyError` when a condition's origin model is absent from the map. -/
def ignore_filter_of (set_to_filter_map : SetToFilterMap)
    (conditions : List IgnoreFilter) (acc : QExpr) : Except PyErr QExpr :=
  match conditions with
  | [] => .ok acc
  | condition :: rest =>
    match dictLookup set_to_filter_map condition.set_to_filter_origin_model with
    | none => .error .keyError
    | some group =>
      match dictLookup group condition.set_to_filter_field_name with
      | none => ignore_filter_of set_to_filter_map rest acc
      | some value_model_map =>
        if value_model_map.isEmpty then
          ignore_filter_of set_to_filter_map rest acc
        else
          let unmatched_id_list :=
            (value_model_map.filter (fun kv => kv.2.isNone)).map (·.1)
          if unmatched_id_list.isEmpty then
            ignore_filter_of set_to_filter_map rest acc
          else
            ignore_filter_of set_to_filter_map rest
              (qor acc (qForRawKey condition.filter_name unmatched_id_list))

/-- `Copyist._evaluate_ignored_by_filters` (lines 467–498). -/
def evaluate_ignored_by_filters (store : Store) (input_data : InputData)
    (model_config : ModelCopyConfig) (set_to_filter_map : SetToFilterMap)
    (model_extra_filter : Option QExpr) : Except PyErr (List Entity) :=
  match model_config.ignore_condition with
  | none => .error (.attributeError "ignore_condition")
  | some cond =>
    match ignore_filter_of set_to_filter_map cond.filter_conditions .qEmpty with
    | .error e => .error e
    | .ok ignore_filter =>
      if !qTruthy ignore_filter then .ok []
      else
        let ignore_filter :=
          match model_extra_filter with
          | some q => if qTruthy q then qand ignore_filter q else ignore_filter
          | none => ignore_filter
        .ok (get_instances_for_model_config store input_data model_config
          (some ignore_filter))

/-- `Copyist._evaluate_ignored` (lines 500–530).  The Python
`list({i.pk for i in ignored_values})` materialises a set of primary keys
as a list; the embedding uses first-occurrence deduplication (Python's
set order is a different but equally input-determined order). -/
def evaluate_ignored (store : Store) (input_data : InputData)
    (model_config : ModelCopyConfig) (set_to_filter_map : SetToFilterMap)
    (model_extra_filter : Option QExpr) (ignored_map : IgnoredMap) :
    Except PyErr IgnoredMap :=
  match model_config.ignore_condition with
  | none => .ok ignored_map
  | some cond =>
    let ignored_values? : Except PyErr (List Entity) :=
      if !cond.filter_conditions.isEmpty then
        evaluate_ignored_by_filters store input_data model_config
          set_to_filter_map model_extra_filter
      else
        match cond.ignore_func with
        | some f =>
          .ok (f store set_to_filter_map model_extra_filter ignored_map
            input_data)
        | none =>
          .error (.valueError "No ignore func or filter condition on ignore condition")
    ignored_values?.map (fun ignored_values =>
      if ignored_values.isEmpty then ignored_map
      else dictInsert ignored_map model_config.model
        ((ignored_values.map (·.pk)).dedup))

/-! ## Validation pass (copyist.py lines 532–613) -/

/-- The mutable validation context threaded through
`_run_validation_for_model`: the shared `set_to_filter_map` dict plus the
instance attributes `_validation_affected_map`, `_ignored_map` and
`_ignore_conditions_to_resolve` assigned by `validate_config`. -/
structure VState where
  set_to_filter_map : SetToFilterMap := []
  validation_affected_map : ValidationAffectedMap := []
  ignored_map : IgnoredMap := []
  ignore_conditions_to_resolve : List IgnoreEvaluation := []

mutual

/-- `Copyist._run_validation_for_model` (lines 532–586). -/
def run_validation_for_model (store : Store) (input_data : InputData)
    (model_config : ModelCopyConfig) (model_extra_filters : Option QExpr)
    (vs : VState) : VState × Option PyErr :=
  match model_config with
  | .mk mname ffik statq fields compound icond dprep dpost =>
    let cfg := ModelCopyConfig.mk mname ffik statq fields compound icond dprep dpost
    let instance_list :=
      get_instances_for_model_config store input_data cfg model_extra_filters
    if (dictLookup vs.validation_affected_map mname).isSome then
      (vs, some (.valueError ("Model " ++ mname ++
        " has been configured for copy several times")))
    else
      let vs := { vs with
        validation_affected_map := dictInsert vs.validation_affected_map mname
          (instance_list.map (·.pk)) }
      match validate_field_actions store input_data cfg instance_list fields vs with
      | (vs', some e) => (vs', some e)
      | (vs', none) =>
        match validate_compound_actions store input_data compound vs' with
        | (vs'', some e) => (vs'', some e)
        | (vs'', none) =>
          match icond with
          | some _ =>
            ({ vs'' with ignore_conditions_to_resolve :=
              vs''.ignore_conditions_to_resolve ++
                [⟨cfg, model_extra_filters⟩] }, none)
          | none => (vs'', none)

/-- The `SET_TO_FILTER` / `MAKE_COPY` dispatch loop of
`_run_validation_for_model` (lines 549–565), inlining
`_execute_make_copy_config_validation` (lines 339–367). -/
def validate_field_actions (store : Store) (input_data : InputData)
    (model_config : ModelCopyConfig) (instance_list : List Entity)
    (fields : List (String × FieldCopyConfigBase × Option ModelCopyConfig))
    (vs : VState) : VState × Option PyErr :=
  match fields with
  | [] => (vs, none)
  | (field_name, field_copy_config, copy_with_config) :: rest =>
    if field_copy_config.action == CopyActions.SET_TO_FILTER then
      match execute_set_to_filter_config_validation store input_data
          model_config field_name field_copy_config vs.set_to_filter_map
          instance_list with
      | .error e => (vs, some e)
      | .ok stf' =>
        validate_field_actions store input_data model_config instance_list rest
          { vs with set_to_filter_map := stf' }
    else if field_copy_config.action == CopyActions.MAKE_COPY then
      match field_copy_config.descr with
      | none =>
        (vs, some (.valueError ("Field " ++ field_name ++ " was declared in "
          ++ model_config.model ++ " config, but not present on model")))
      | some (.reverseFK child_attname _) =>
        match copy_with_config with
        | none => (vs, some (.attributeError "copy_with_config"))
        | some sub_config =>
          match run_validation_for_model store input_data sub_config
              (some (.qIn child_attname (instance_list.map (·.pk)))) vs with
          | (vs', some e) => (vs', some e)
          | (vs', none) =>
            validate_field_actions store input_data model_config instance_list
              rest vs'
      | some _ =>
        (vs, some (.valueError ("Expected Many to One field on " ++ field_name
          ++ " for MAKE_COPY config")))
    else
      validate_field_actions store input_data model_config instance_list rest vs

/-- The compound loop of `_run_validation_for_model` (lines 567–577). -/
def validate_compound_actions (store : Store) (input_data : InputData)
    (compound : List ModelCopyConfig) (vs : VState) :
    VState × Option PyErr :=
  match compound with
  | [] => (vs, none)
  | compound_config :: rest =>
    match get_extra_filters_for_compound_actions compound_config
        vs.validation_affected_map with
    | .error e => (vs, some e)
    | .ok extra_filters =>
      if !qTruthy extra_filters then
        validate_compound_actions store input_data rest vs
      else
        match run_validation_for_model store input_data compound_config
            (some extra_filters) vs with
        | (vs', some e) => (vs', some e)
        | (vs', none) => validate_compound_actions store input_data rest vs'

end

/-- `Copyist._resolve_ignore_conditions` (lines 588–594). -/
def resolve_ignore_conditions (store : Store) (input_data : InputData)
    (conditions : List IgnoreEvaluation) (set_to_filter_map : SetToFilterMap)
    (ignored_map : IgnoredMap) : IgnoredMap × Option PyErr :=
  match conditions with
  | [] => (ignored_map, none)
  | condition :: rest =>
    match evaluate_ignored store input_data condition.model_config
        set_to_filter_map condition.original_extra_filter ignored_map with
    | .error e => (ignored_map, some e)
    | .ok ignored' =>
      resolve_ignore_conditions store input_data rest set_to_filter_map ignored'

/-- The root loop of `validate_config` (lines 602–611): the
empty-`filter_field_to_input_key` check, then the walk. -/
def validate_roots (store : Store) (input_data : InputData)
    (configs : List ModelCopyConfig) (vs : VState) : VState × Option PyErr :=
  match configs with
  | [] => (vs, none)
  | model_config :: rest =>
    if model_config.filter_field_to_input_key.isEmpty then
      (vs, some (.valueError ("Root config must describe filter_filed_to_input_key map, to narrow the query on "
        ++ model_config.model)))
    else
      match run_validation_for_model store input_data model_config none vs with
      | (vs', some e) => (vs', some e)
      | (vs', none) => validate_roots store input_data rest vs'

/-- `Copyist.validate_config` (lines 596–613).  The accumulator dicts are
assigned to the instance at entry, so their partially built contents stay
visible on the instance when an exception escapes; the local
`set_to_filter_map` is stored only on success. -/
def validate_config (store : Store) (cs : CopyistState) :
    CopyistState × Option PyErr :=
  let vs0 : VState := {}
  let r1 := validate_roots store cs.request.input_data
    cs.request.config.model_configs vs0
  let vs1 := r1.1
  let cs1 := { cs with
    mut_validation_affected_map := some vs1.validation_affected_map
    mut_ignored_map := some vs1.ignored_map
    mut_ignore_conditions_to_resolve := some vs1.ignore_conditions_to_resolve }
  match r1.2 with
  | some e => (cs1, some e)
  | none =>
    let r2 := resolve_ignore_conditions store cs.request.input_data
      vs1.ignore_conditions_to_resolve vs1.set_to_filter_map vs1.ignored_map
    let cs2 := { cs1 with mut_ignored_map := some r2.1 }
    match r2.2 with
    | some e => (cs2, some e)
    | none =>
      ({ cs2 with mut_set_to_filter_map := some vs1.set_to_filter_map }, none)

/-! ## Execution pass: field-value evaluation (copyist.py lines 615–929) -/

/-- Sequential (left-to-right) exception-aware iteration, embedding a
Python `for` loop that can raise. -/
def foldExcept {σ : Type} (f : σ → Except PyErr σ) : Nat → σ → Except PyErr σ
  | 0, s => .ok s
  | n + 1, s =>
    match f s with
    | .error e => .error e
    | .ok s' => foldExcept f n s'

/-- Append to a dict-of-lists value, creating the key on first use
(`if k not in m: m[k] = []` followed by `m[k].append(v)`). -/
def dictAppend (m : List (Nat × List Nat)) (k v : Nat) : List (Nat × List Nat) :=
  match dictLookup m k with
  | some l => dictInsert m k (l ++ [v])
  | none => m ++ [(k, [v])]

/-- `Copyist._get_m2m_relation_map` (lines 659–679): origin id to the list
of linked ids, read from the through-model rows. -/
def get_m2m_relation_map (store : Store) (d : M2MDescriptor)
    (instance_id_list : List Nat) : List (Nat × List Nat) :=
  let through_records := store.filterRows d.through_model (fun t =>
    match getScalar t d.backward_id_key with
    | some b => instance_id_list.contains b
    | none => false)
  through_records.foldl (fun m record =>
    match getScalar record d.backward_id_key,
        getScalar record d.forward_id_key with
    | some origin_id, some linked_id => dictAppend m origin_id linked_id
    | _, _ => m) []

/-- `Copyist._save_m2m_fields_values` (lines 681–725): appends one
`M2MCopyIntent` to every intent with linked ids; when
`update_origin_id_from_set_to_filter` is set, unmatched related ids
remove the whole intent from the list. -/
def save_m2m_fields_values (set_to_filter_map : SetToFilterMap)
    (field_name : String) (m2m_map : List (Nat × List Nat))
    (referenced_model through_model : String)
    (m2m_forward_id_field_name m2m_backward_id_field_name : String)
    (from_model : String)
    (use_copied_related_instances update_origin_id_from_set_to_filter
      use_set_to_filter_values : Bool) :
    List CopyIntent → Except PyErr (List CopyIntent)
  | [] => .ok []
  | copy_intent :: rest =>
    let recur := save_m2m_fields_values set_to_filter_map field_name m2m_map
      referenced_model through_model m2m_forward_id_field_name
      m2m_backward_id_field_name from_model use_copied_related_instances
      update_origin_id_from_set_to_filter use_set_to_filter_values rest
    match dictLookup m2m_map copy_intent.origin.pk with
    | none => recur.map (copy_intent :: ·)
    | some ids_linked_to_origin =>
      if ids_linked_to_origin.isEmpty then recur.map (copy_intent :: ·)
      else
        let related? : Except PyErr (Option (List Nat)) :=
          if update_origin_id_from_set_to_filter then
            match dictLookup set_to_filter_map from_model with
            | none => .error .keyError
            | some group =>
              match dictLookup group field_name with
              | none => .error .keyError
              | some field_map =>
                let updated_id_list := ids_linked_to_origin.map (fun related_id =>
                  match dictLookup field_map related_id with
                  | some (some v) => some v
                  | _ => none)
                if updated_id_list.contains none then .ok none
                else .ok (some (updated_id_list.filterMap id))
          else .ok (some ids_linked_to_origin)
        match related? with
        | .error e => .error e
        | .ok none => recur
        | .ok (some related_id_list) =>
          recur.map (fun tl =>
            { copy_intent with m2m_copy_intent_list :=
                copy_intent.m2m_copy_intent_list ++
                  [{ field_name := field_name
                     related_id_list := related_id_list
                     backward_id_key := m2m_backward_id_field_name
                     forward_id_key := m2m_forward_id_field_name
                     through_model := through_model
                     from_model := from_model
                     to_model := referenced_model
                     use_copied_related_instances := use_copied_related_instances
                     use_set_to_filter_values := use_set_to_filter_values }] }
              :: tl)

/-- `Copyist._evaluate_m2m_field_values` (lines 727–771).  The embedding's
`M2MDescriptor` already carries the backward/forward id keys the source
derives from `field_link.reverse` and the `m2m_(reverse_)field_name`
accessors. -/
def evaluate_m2m_field_values (store : Store)
    (set_to_filter_map : SetToFilterMap) (field_name : String)
    (d : M2MDescriptor) (from_model : String) (instance_id_list : List Nat)
    (copy_intent_list : List CopyIntent) (referenced_model : String)
    (use_copied_related_instances use_set_to_filter_values
      update_origin_id_from_set_to_filter : Bool) :
    Except PyErr (List CopyIntent) :=
  if use_copied_related_instances && use_set_to_filter_values then
    .error (.valueError "Both use_copied_related_instances and use_set_to_filter_values are set to True")
  else
    let m2m_map := get_m2m_relation_map store d instance_id_list
    save_m2m_fields_values set_to_filter_map field_name m2m_map
      referenced_model d.through_model d.forward_id_key d.backward_id_key
      from_model use_copied_related_instances
      update_origin_id_from_set_to_filter use_set_to_filter_values
      copy_intent_list

/-- The scalar branch of `_evaluate_take_from_origin_field_values` (lines
640–648): `getattr(origin, field_name)` copied into the intent's field
data, `ValueError` when the attribute does not exist. -/
def take_from_origin_scalar_loop (model_class field_name : String) :
    List CopyIntent → Except PyErr (List CopyIntent)
  | [] => .ok []
  | copy_intent :: rest =>
    match dictLookup copy_intent.origin.fields field_name with
    | none =>
      .error (.valueError (field_name ++
        " declared for copy from origin, but field not found on model "
        ++ model_class))
    | some origin_value =>
      (take_from_origin_scalar_loop model_class field_name rest).map
        (fun tl => { copy_intent with
          copy_data := dictInsert copy_intent.copy_data field_name origin_value } :: tl)

/-- `Copyist._evaluate_take_from_origin_field_values` (lines 615–648).
The per-intent loop re-runs the whole-list m2m evaluation once for every
element of the (unchanged) intent list. -/
def evaluate_take_from_origin_field_values (store : Store)
    (set_to_filter_map : SetToFilterMap) (model_class : String)
    (field_name : String) (descr : Option FieldDescriptor)
    (copy_intent_list : List CopyIntent) : Except PyErr (List CopyIntent) :=
  match descr with
  | some (.manyToMany d) =>
    foldExcept (fun cur =>
        evaluate_m2m_field_values store set_to_filter_map field_name d
          model_class (cur.map (·.origin.pk)) cur d.related_model
          false false false)
      copy_intent_list.length copy_intent_list
  | _ =>
    take_from_origin_scalar_loop model_class field_name copy_intent_list

/-- `Copyist._evaluate_take_from_input_field_values` (lines 650–657). -/
def evaluate_take_from_input_field_values (input_data : InputData)
    (field_name input_key : String) :
    List CopyIntent → Except PyErr (List CopyIntent)
  | [] => .ok []
  | copy_intent :: rest =>
    match dictLookup input_data input_key with
    | none => .error (.valueError ("No " ++ input_key ++ " in input_data"))
    | some input_value =>
      (evaluate_take_from_input_field_values input_data field_name input_key
          rest).map
        (fun tl => { copy_intent with
          copy_data := dictInsert copy_intent.copy_data field_name [input_value] } :: tl)

/-- `Copyist._evaluate_reverse_fk_field_values` (lines 773–793): remap a
forward fk through the referenced model's output map; a null fk copies as
null, a missing output-map entry raises. -/
def evaluate_reverse_fk_field_values (id_field_name : String)
    (model_output_map : List (Nat × Nat)) (referenced_model : String) :
    List CopyIntent → Except PyErr (List CopyIntent)
  | [] => .ok []
  | copy_intent :: rest =>
    let recur := evaluate_reverse_fk_field_values id_field_name
      model_output_map referenced_model rest
    match getScalar copy_intent.origin id_field_name with
    | none =>
      recur.map (fun tl => { copy_intent with
        copy_data := dictInsert copy_intent.copy_data id_field_name [] } :: tl)
    | some referenced_instance_id =>
      match dictLookup model_output_map referenced_instance_id with
      | none =>
        .error (.valueError ("Copy of " ++ referenced_model ++
          " was not found in output map"))
      | some copy_id =>
        recur.map (fun tl => { copy_intent with
          copy_data := dictInsert copy_intent.copy_data id_field_name [copy_id] } :: tl)

/-- `Copyist._evaluate_update_to_copied_field_values` (lines 795–843). -/
def evaluate_update_to_copied_field_values (store : Store)
    (set_to_filter_map : SetToFilterMap) (model_class : String)
    (field_copy_config : FieldCopyConfigBase)
    (model_output_map : List (Nat × Nat)) (field_name : String)
    (instance_list : List Entity) (copy_intent_list : List CopyIntent) :
    Except PyErr (List CopyIntent) :=
  match field_copy_config.descr with
  | none => .error (.attributeError field_name)
  | some (.manyToMany d) =>
    if d.related_model != field_copy_config.reference_to then
      .error (.valueError (field_copy_config.reference_to ++
        " was referenced from " ++ model_class ++ " by field " ++ field_name
        ++ ", but " ++ d.related_model ++ " was found by that name"))
    else
      evaluate_m2m_field_values store set_to_filter_map field_name d
        model_class (instance_list.map (·.pk)) copy_intent_list
        field_copy_config.reference_to true false false
  | some (.forwardFK attname _ related_model) =>
    if related_model != field_copy_config.reference_to then
      .error (.valueError (field_copy_config.reference_to ++
        " was referenced from " ++ model_class ++ " by field " ++ field_name
        ++ ", but " ++ related_model ++ " was found by that name"))
    else
      evaluate_reverse_fk_field_values attname model_output_map
        field_copy_config.reference_to copy_intent_list
  | some _ =>
    .error (.valueError ("Expected ManyToOne or ManyToMany field on " ++
      field_name ++ " for UPDATE_TO_COPIED config, on " ++ model_class))

/-- The to-one body of `_evaluate_set_to_filter_field_values` (lines
859–884): a null origin fk copies as null; a non-null one is remapped
through the field's reference map, and an unresolved (`None`) mapping
removes the intent from the list. -/
def set_to_filter_to_one_loop (id_field_name : String)
    (model_set_to_filter_map : Option FieldSetToFilterMap)
    (referenced_model field_name : String) :
    List CopyIntent → Except PyErr (List CopyIntent)
  | [] => .ok []
  | copy_intent :: rest =>
    let recur := set_to_filter_to_one_loop id_field_name
      model_set_to_filter_map referenced_model field_name rest
    match getScalar copy_intent.origin id_field_name with
    | none =>
      recur.map (fun tl => { copy_intent with
        copy_data := dictInsert copy_intent.copy_data id_field_name [] } :: tl)
    | some origin_related_id =>
      match model_set_to_filter_map with
      | none =>
        .error (.runtimeError ("No model filters are ready for " ++
          referenced_model ++ " in " ++ field_name))
      | some field_map =>
        if field_map.isEmpty then
          .error (.runtimeError ("No model filters are ready for " ++
            referenced_model ++ " in " ++ field_name))
        else
          match dictLookup field_map origin_related_id with
          | none => .error .keyError
          | some none => recur
          | some (some substitute_id) =>
            recur.map (fun tl => { copy_intent with
              copy_data := dictInsert copy_intent.copy_data id_field_name [substitute_id] }
              :: tl)

/-- `Copyist._evaluate_set_to_filter_field_values` (lines 845–884).  In
the many-to-many case the per-intent loop re-runs the whole-list m2m
evaluation once per element of the (unchanged) list, exactly as
`_evaluate_take_from_origin_field_values` does. -/
def evaluate_set_to_filter_field_values (store : Store)
    (set_to_filter_map : SetToFilterMap) (model_class : String)
    (field_copy_config : FieldCopyConfigBase) (field_name : String)
    (copy_intent_list : List CopyIntent) : Except PyErr (List CopyIntent) :=
  match field_copy_config.descr with
  | none => .error (.attributeError field_name)
  | some (.manyToMany d) =>
    match dictLookup set_to_filter_map model_class with
    | none => .error .keyError
    | some _ =>
      foldExcept (fun cur =>
          evaluate_m2m_field_values store set_to_filter_map field_name d
            model_class (cur.map (·.origin.pk)) cur
            field_copy_config.reference_to false true false)
        copy_intent_list.length copy_intent_list
  | some (.forwardFK attname _ _) =>
    match dictLookup set_to_filter_map model_class with
    | none => .error .keyError
    | some group =>
      set_to_filter_to_one_loop attname (dictLookup group field_name)
        field_copy_config.reference_to field_name copy_intent_list
  | some (.reverseFK child_attname _) =>
    match dictLookup set_to_filter_map model_class with
    | none => .error .keyError
    | some group =>
      set_to_filter_to_one_loop child_attname (dictLookup group field_name)
        field_copy_config.reference_to field_name copy_intent_list
  | some .scalarField => .error (.attributeError "field")

/-- `Copyist._evaluate_field_values` (lines 886–929). -/
def evaluate_field_values (store : Store) (input_data : InputData)
    (set_to_filter_map : SetToFilterMap) (output_map : OutputMap)
    (field_name : String) (field_copy_config : FieldCopyConfigBase)
    (model_class : String) (copy_intent_list : List CopyIntent)
    (instance_list : List Entity) : Except PyErr (List CopyIntent) :=
  match field_copy_config.action with
  | .MAKE_COPY => .ok copy_intent_list
  | .TAKE_FROM_ORIGIN =>
    evaluate_take_from_origin_field_values store set_to_filter_map
      model_class field_name field_copy_config.descr copy_intent_list
  | .TAKE_FROM_INPUT =>
    evaluate_take_from_input_field_values input_data field_name
      field_copy_config.input_key copy_intent_list
  | .UPDATE_TO_COPIED =>
    let model_output_map :=
      (dictLookup output_map field_copy_config.reference_to).getD []
    evaluate_update_to_copied_field_values store set_to_filter_map
      model_class field_copy_config model_output_map field_name
      instance_list copy_intent_list
  | .SET_TO_FILTER =>
    evaluate_set_to_filter_field_values store set_to_filter_map model_class
      field_copy_config field_name copy_intent_list

/-! ## Execution pass: hooks, junction rows, bulk create
(copyist.py lines 931–1115) -/

/-- `Copyist._execute_delete_by_filter_step` (lines 931–938): equality
filters built from `input_data` (`KeyError` on a missing input key), then
a filtered delete. -/
def execute_delete_by_filter_step (input_data : InputData)
    (model : String) (step : DataModificationStep) (store : Store) :
    Except PyErr Store :=
  let rec build : List (String × String) →
      Except PyErr (List (String × Nat))
    | [] => .ok []
    | (filter_field, input_key) :: rest =>
      match dictLookup input_data input_key with
      | none => .error .keyError
      | some value => (build rest).map ((filter_field, value) :: ·)
  (build step.filter_field_to_input_key).map (fun filters =>
    store.deleteRows model (fun e =>
      filters.all (fun p => getAttr e p.1 == [p.2])))

/-- `Copyist.run_data_preparation` (lines 940–952) and
`Copyist.run_postcopy_steps` (lines 954–970): the shared step loop;
data-preparation calls pass an empty intent list (the Python
data-preparation hook signature simply lacks that argument). -/
def run_mod_steps (input_data : InputData)
    (set_to_filter_map : SetToFilterMap) (model : String)
    (output_map : OutputMap) (copy_intent_list : List CopyIntent)
    (steps : List DataModificationStep) (store : Store) :
    Store × Option PyErr :=
  match steps with
  | [] => (store, none)
  | step :: rest =>
    match step.action with
    | .DELETE_BY_FILTER =>
      match execute_delete_by_filter_step input_data model step store with
      | .error e => (store, some e)
      | .ok store' =>
        run_mod_steps input_data set_to_filter_map model output_map
          copy_intent_list rest store'
    | .EXECUTE_FUNC =>
      match step.func with
      | none => (store, some (.typeError "step.func is None"))
      | some f =>
        run_mod_steps input_data set_to_filter_map model output_map
          copy_intent_list rest
          (f input_data set_to_filter_map output_map copy_intent_list store)

/-- `Copyist._get_copied_ids_from_output_map` (lines 972–992). -/
def get_copied_ids_from_output_map (model_class : String)
    (m2m_copy_intent : M2MCopyIntent) (output_map : OutputMap) :
    Except PyErr (List Nat) :=
  let rec go : List Nat → Except PyErr (List Nat)
    | [] => .ok []
    | related_id :: rest =>
      match dictLookup output_map m2m_copy_intent.to_model with
      | none =>
        .error (.valueError (model_class ++
          " referenced before any copies were made"))
      | some related_output_map =>
        if related_output_map.isEmpty then
          .error (.valueError (model_class ++
            " referenced before any copies were made"))
        else
          match dictLookup related_output_map related_id with
          | none =>
            .error (.valueError ("Copy of " ++ model_class ++
              " was not found in output map"))
          | some copied_related_id => (go rest).map (copied_related_id :: ·)
  go m2m_copy_intent.related_id_list

/-- One junction row to create: through model name and its field data. -/
abbrev ThroughRow := String × List (String × List Nat)

/-- The body of the inner loop of
`_create_m2m_relations_for_update_to_copied` (lines 1002–1034) for one
copy intent: one `(through_model, row)` pair per resolved related id, in
order. -/
def m2m_rows_go (set_to_filter_map : SetToFilterMap)
    (output_map : OutputMap) (model_class : String)
    (copy_intent : CopyIntent) :
    List M2MCopyIntent → Except PyErr (List ThroughRow)
  | [] => .ok []
  | m2m_copy_intent :: rest =>
    let related? : Except PyErr (List Nat) :=
      if m2m_copy_intent.use_copied_related_instances then
        get_copied_ids_from_output_map model_class m2m_copy_intent
          output_map
      else if m2m_copy_intent.use_set_to_filter_values then
        match dictLookup set_to_filter_map m2m_copy_intent.from_model with
        | none => .error .keyError
        | some group =>
          match dictLookup group m2m_copy_intent.field_name with
          | none => .error .keyError
          | some field_set_to_filter_map =>
            .ok (m2m_copy_intent.related_id_list.filterMap (fun related_id =>
          match dictLookup field_set_to_filter_map related_id with
          | some (some v) => some v
          | _ => none))
      else .ok m2m_copy_intent.related_id_list
    match related? with
    | .error e => .error e
    | .ok related_id_list_to_create =>
      match copy_intent.copied with
      | none => .error (.attributeError "pk")
      | some copied =>
        (m2m_rows_go set_to_filter_map output_map model_class copy_intent
            rest).map (fun tl =>
          related_id_list_to_create.map (fun related_id =>
            (m2m_copy_intent.through_model,
              [(m2m_copy_intent.backward_id_key, [copied.pk]),
               (m2m_copy_intent.forward_id_key, [related_id])])) ++ tl)

/-- `_get_m2m_relations_for_intent` wrapper: the rows of one copy
intent's whole pending list. -/
def m2m_rows_for_intent (set_to_filter_map : SetToFilterMap)
    (output_map : OutputMap) (model_class : String)
    (copy_intent : CopyIntent) : Except PyErr (List ThroughRow) :=
  m2m_rows_go set_to_filter_map output_map model_class copy_intent
    copy_intent.m2m_copy_intent_list

/-- The `m2m_relations_to_create` grouping dict (lines 1000–1034): rows
grouped by through model, keys in first-appearance order (a key is
registered even when an intent contributes no rows for it). -/
def group_through_rows (groups : List (String × List (List (String × List Nat))))
    (through : String) (rows : List (List (String × List Nat))) :
    List (String × List (List (String × List Nat))) :=
  match dictLookup groups through with
  | some l => dictInsert groups through (l ++ rows)
  | none => groups ++ [(through, rows)]

/-- The inner loop of `_create_m2m_relations_for_update_to_copied` over
one copy intent's pending m2m instructions: each instruction registers its
through model and appends its resolved rows to that model's group. -/
def m2m_groups_per_intent (set_to_filter_map : SetToFilterMap)
    (output_map : OutputMap) (model_class : String)
    (copy_intent : CopyIntent)
    (groups : List (String × List (List (String × List Nat)))) :
    List M2MCopyIntent →
      Except PyErr (List (String × List (List (String × List Nat))))
  | [] => .ok groups
  | m2m_copy_intent :: irest =>
    let groups := group_through_rows groups
      m2m_copy_intent.through_model []
    match m2m_rows_for_intent set_to_filter_map output_map model_class
        { copy_intent with
          m2m_copy_intent_list := [m2m_copy_intent] } with
    | .error e => .error e
    | .ok pairs =>
      m2m_groups_per_intent set_to_filter_map output_map model_class
        copy_intent
        (group_through_rows groups
          m2m_copy_intent.through_model (pairs.map (·.2))) irest

/-- The outer loop of `_create_m2m_relations_for_update_to_copied`:
accumulate the grouped through rows over all copy intents. -/
def m2m_groups_collect (set_to_filter_map : SetToFilterMap)
    (output_map : OutputMap) (model_class : String)
    (groups : List (String × List (List (String × List Nat)))) :
    List CopyIntent →
      Except PyErr (List (String × List (List (String × List Nat))))
  | [] => .ok groups
  | copy_intent :: rest =>
    match m2m_groups_per_intent set_to_filter_map output_map model_class
        copy_intent groups copy_intent.m2m_copy_intent_list with
    | .error e => .error e
    | .ok groups' =>
      m2m_groups_collect set_to_filter_map output_map model_class groups'
        rest

/-- The final loop of `_create_m2m_relations_for_update_to_copied`: one
`bulk_create` per through model, in group order. -/
def m2m_create_all (oracle : InsertOracle) (store : Store) :
    List (String × List (List (String × List Nat))) → Except PyErr Store
  | [] => .ok store
  | (through, rows) :: rest =>
    match store.bulkCreate oracle through rows with
    | .error e => .error e
    | .ok (store', _) => m2m_create_all oracle store' rest

/-- `Copyist._create_m2m_relations_for_update_to_copied`
(lines 994–1037): resolve every pending m2m instruction and bulk-create
the junction rows, one `bulk_create` per through model.  No logging
happens on this path. -/
def create_m2m_relations_for_update_to_copied (oracle : InsertOracle)
    (set_to_filter_map : SetToFilterMap) (output_map : OutputMap)
    (model_class : String) (copy_intent_list : List CopyIntent)
    (store : Store) : Except PyErr Store :=
  match m2m_groups_collect set_to_filter_map output_map model_class []
      copy_intent_list with
  | .error e => .error e
  | .ok groups => m2m_create_all oracle store groups

/-- `Copyist._apply_ignored_to_extra_filters` (lines 1105–1115). -/
def apply_ignored_to_extra_filters (ignored_map : IgnoredMap)
    (model_class : String) (extra_filters : Option QExpr) : Option QExpr :=
  match dictLookup ignored_map model_class with
  | none => extra_filters
  | some ignored_id_list =>
    let result_filter := QExpr.qNot (.qIn "id" ignored_id_list)
    some (match extra_filters with
      | some q => if qTruthy q then qand result_filter q else result_filter
      | none => result_filter)

/-- The parent-link patch of `_execute_copy_intent_list` (lines
1084–1093): the field data for each copy, with the parent fk remapped
through the parent model's output map when a parent relation is given. -/
def build_copies_to_create (output_map : OutputMap)
    (parent_relation_field : Option (String × String)) :
    List CopyIntent → Except PyErr (List (List (String × List Nat)))
  | [] => .ok []
  | copy_intent :: rest =>
    let recur := build_copies_to_create output_map parent_relation_field rest
    match parent_relation_field with
    | none => recur.map (copy_intent.copy_data :: ·)
    | some (relation_field_name, relation_model_name) =>
      match dictLookup output_map relation_model_name with
      | none => .error .keyError
      | some parent_map =>
        match getScalar copy_intent.origin relation_field_name with
        | none => .error .keyError
        | some origin_parent_id =>
          match dictLookup parent_map origin_parent_id with
          | none => .error .keyError
          | some copied_parent_id =>
            recur.map (fun tl =>
              dictInsert copy_intent.copy_data relation_field_name
                [copied_parent_id] :: tl)

/-- The engine-side state of one execution: the store plus the logger
output (which, unlike the store, survives a transaction rollback). -/
structure EState where
  store : Store
  log : List String := []
deriving DecidableEq, Repr

/-- `Copyist._execute_copy_intent_list` (lines 1076–1103): bulk-create
the node's copies; an `IntegrityError` is logged with the failing model
name and re-raised. -/
def execute_copy_intent_list (oracle : InsertOracle) (output_map : OutputMap)
    (model_class : String) (copy_intent_list : List CopyIntent)
    (parent_relation_field : Option (String × String)) (es : EState) :
    EState × Except PyErr (List Entity) :=
  match build_copies_to_create output_map parent_relation_field
      copy_intent_list with
  | .error e => (es, .error e)
  | .ok copies_to_create =>
    if copies_to_create.isEmpty then (es, .ok [])
    else
      match es.store.bulkCreate oracle model_class copies_to_create with
      | .ok (store', created_copy_list) =>
        ({ es with store := store' }, .ok created_copy_list)
      | .error e =>
        ({ es with log := es.log ++ ["Error on creating " ++ model_class] },
          .error e)

/-! ## Execution pass: the copy walk (copyist.py lines 1039–1074 and
1117–1200) -/

/-- The read-only execution environment: the request's input data and the
validated snapshot, plus the store's constraint oracle. -/
structure ExecEnv where
  input_data : InputData
  set_to_filter_map : SetToFilterMap
  ignored_map : IgnoredMap
  oracle : InsertOracle

/-- The field loop of `copy_model` (lines 1137–1145). -/
def evaluate_fields_loop (env : ExecEnv) (store : Store)
    (output_map : OutputMap) (model_class : String)
    (instance_list : List Entity) :
    List (String × FieldCopyConfigBase × Option ModelCopyConfig) →
      List CopyIntent → Except PyErr (List CopyIntent)
  | [], copy_intent_list => .ok copy_intent_list
  | (field_name, field_copy_config, _) :: rest, copy_intent_list =>
    match evaluate_field_values store env.input_data env.set_to_filter_map
        output_map field_name field_copy_config model_class copy_intent_list
        instance_list with
    | .error e => .error e
    | .ok copy_intent_list' =>
      evaluate_fields_loop env store output_map model_class instance_list
        rest copy_intent_list'

/-- The `(attname, related model)` pair `_execute_copy_for_make_copy_fields`
reads off the field descriptor (`field_link.field.attname` and
`field_link.field.related_model.__name__`). -/
def make_copy_relation (model field_name : String) :
    FieldDescriptor → Except PyErr (String × String)
  | .reverseFK child_attname _ => .ok (child_attname, model)
  | .forwardFK attname _ related_model => .ok (attname, related_model)
  | .manyToMany d => .ok (field_name, d.related_model)
  | .scalarField => .error (.attributeError "related_model")

mutual

/-- `Copyist.copy_model` (lines 1117–1184). -/
def copy_model (env : ExecEnv) (model_config : ModelCopyConfig)
    (output_map : OutputMap) (extra_filters : Option QExpr)
    (parent_relation_field : Option (String × String)) (es : EState) :
    EState × Except PyErr OutputMap :=
  match model_config with
  | .mk mname ffik statq fields compound icond dprep dpost =>
    let cfg := ModelCopyConfig.mk mname ffik statq fields compound icond
      dprep dpost
    let prep := run_mod_steps env.input_data env.set_to_filter_map mname
      output_map [] dprep es.store
    let es := { es with store := prep.1 }
    match prep.2 with
    | some e => (es, .error e)
    | none =>
      let filters := apply_ignored_to_extra_filters env.ignored_map mname
        extra_filters
      let instance_list := get_instances_for_model_config es.store
        env.input_data cfg filters
      if instance_list.isEmpty then (es, .ok output_map)
      else
        let copy_intent_list := instance_list.map
          (fun i => CopyIntent.mk i [] [] none)
        match evaluate_fields_loop env es.store output_map mname
            instance_list fields copy_intent_list with
        | .error e => (es, .error e)
        | .ok copy_intent_list =>
          if copy_intent_list.isEmpty then (es, .ok output_map)
          else
            match execute_copy_intent_list env.oracle output_map mname
                copy_intent_list parent_relation_field es with
            | (es, .error e) => (es, .error e)
            | (es, .ok created_copy_list) =>
              let output_map :=
                if (dictLookup output_map mname).isSome then output_map
                else dictInsert output_map mname []
              let pairs := copy_intent_list.zip created_copy_list
              let model_output_map := pairs.foldl
                (fun m p => dictInsert m p.1.origin.pk p.2.pk)
                ((dictLookup output_map mname).getD [])
              let output_map := dictInsert output_map mname model_output_map
              let copy_intent_list := pairs.map
                (fun p => { p.1 with copied := some p.2 })
              match create_m2m_relations_for_update_to_copied env.oracle
                  env.set_to_filter_map output_map mname copy_intent_list
                  es.store with
              | .error e => (es, .error e)
              | .ok store' =>
                let es := { es with store := store' }
                match execute_copy_for_make_copy_fields env mname
                    instance_list fields output_map es with
                | (es', .error e) => (es', .error e)
                | (es', .ok output_map) =>
                  match execute_copy_on_compound_actions env compound
                      output_map es' with
                  | (es'', .error e) => (es'', .error e)
                  | (es'', .ok output_map) =>
                    let post := run_mod_steps env.input_data
                      env.set_to_filter_map mname output_map copy_intent_list
                      dpost es''.store
                    let es3 := { es'' with store := post.1 }
                    match post.2 with
                    | some e => (es3, .error e)
                    | none => (es3, .ok output_map)

/-- `Copyist._execute_copy_for_make_copy_fields` (lines 1039–1058). -/
def execute_copy_for_make_copy_fields (env : ExecEnv) (model : String)
    (instance_list : List Entity)
    (fields : List (String × FieldCopyConfigBase × Option ModelCopyConfig))
    (output_map : OutputMap) (es : EState) : EState × Except PyErr OutputMap :=
  match fields with
  | [] => (es, .ok output_map)
  | (field_name, field_copy_config, copy_with_config) :: rest =>
    if field_copy_config.action != CopyActions.MAKE_COPY then
      execute_copy_for_make_copy_fields env model instance_list rest
        output_map es
    else
      let instance_id_list := instance_list.map (·.pk)
      match field_copy_config.descr with
      | none => (es, .error (.attributeError field_name))
      | some descr =>
        match make_copy_relation model field_name descr with
        | .error e => (es, .error e)
        | .ok (relation_field_name, relation_model_name) =>
          match copy_with_config with
          | none => (es, .error (.attributeError "copy_with_config"))
          | some sub_config =>
            match copy_model env sub_config output_map
                (some (.qIn relation_field_name instance_id_list))
                (some (relation_field_name, relation_model_name)) es with
            | (es', .error e) => (es', .error e)
            | (es', .ok output_map') =>
              execute_copy_for_make_copy_fields env model instance_list rest
                output_map' es'

/-- `Copyist._execute_copy_on_compound_actions` (lines 1060–1074). -/
def execute_copy_on_compound_actions (env : ExecEnv)
    (compound : List ModelCopyConfig) (output_map : OutputMap)
    (es : EState) : EState × Except PyErr OutputMap :=
  match compound with
  | [] => (es, .ok output_map)
  | compound_config :: rest =>
    let affected_map : ValidationAffectedMap :=
      output_map.map (fun p => (p.1, p.2.map (·.1)))
    match get_extra_filters_for_compound_actions compound_config
        affected_map with
    | .error e => (es, .error e)
    | .ok extra_filters =>
      if !qTruthy extra_filters then
        execute_copy_on_compound_actions env rest output_map es
      else
        match copy_model env compound_config output_map (some extra_filters)
            none es with
        | (es', .error e) => (es', .error e)
        | (es', .ok output_map') =>
          execute_copy_on_compound_actions env rest output_map' es'

end

/-- `Copyist.execute_copy` (lines 1195–1200). -/
def execute_copy_models (env : ExecEnv) (configs : List ModelCopyConfig)
    (output_map : OutputMap) (es : EState) : EState × Except PyErr OutputMap :=
  match configs with
  | [] => (es, .ok output_map)
  | model_config :: rest =>
    match copy_model env model_config output_map none none es with
    | (es', .error e) => (es', .error e)
    | (es', .ok output_map') => execute_copy_models env rest output_map' es'

/-- `Copyist.execute_copy` (lines 1195–1200): the write walk over the root
configs, starting from an empty output map. -/
def execute_copy (env : ExecEnv) (configs : List ModelCopyConfig)
    (es : EState) : EState × Except PyErr OutputMap :=
  execute_copy_models env configs [] es

/-- `Copyist._check_should_abort` (lines 1202–1231), including the
property accesses that would raise before validation. -/
def check_should_abort (cs : CopyistState) : Except PyErr (Option CopyResult) :=
  match cs.set_to_filter_map with
  | .error e => .error e
  | .ok stf =>
    match cs.ignored_map with
    | .error e => .error e
    | .ok ignored =>
      match gateAbortReason cs.request.confirm_write
          cs.request.set_to_filter_map cs.request.ignored_map stf ignored with
      | none => .ok none
      | some reason =>
        .ok (some { is_copy_successful := false
                    output_map := none
                    ignored_map := ignored
                    set_to_filter_map := stf
                    reason := some reason })

/-- Modelled from the spec: the store collaborator's `atomic(block)`
(spec §6, §4.5); Django's `transaction.atomic` is outside this
repository.  An exception escaping the block rolls every store write
back; engine-side logger output is not transactional and survives. -/
def atomic_run (block : EState → EState × Except PyErr OutputMap)
    (es : EState) : EState × Except PyErr OutputMap :=
  match block es with
  | (es', .ok v) => (es', .ok v)
  | (es', .error e) => ({ store := es.store, log := es'.log }, .error e)

/-- `Copyist.execute_copy_request` (lines 1233–1247): validate, gate,
then the whole write walk inside one transaction.  Returns the final
instance state, the final store, the log, and the result (or the
propagated exception). -/
def execute_copy_request (oracle : InsertOracle) (store : Store)
    (cs : CopyistState) :
    CopyistState × Store × List String × Except PyErr CopyResult :=
  match validate_config store cs with
  | (cs1, some e) => (cs1, store, [], .error e)
  | (cs1, none) =>
    match check_should_abort cs1 with
    | .error e => (cs1, store, [], .error e)
    | .ok (some abort_result) => (cs1, store, [], .ok abort_result)
    | .ok none =>
      let env : ExecEnv :=
        { input_data := cs1.request.input_data
          set_to_filter_map := cs1.mut_set_to_filter_map.getD []
          ignored_map := cs1.mut_ignored_map.getD []
          oracle := oracle }
      match atomic_run
          (fun es => execute_copy env cs1.request.config.model_configs es)
          { store := store, log := [] } with
      | (es, .error e) => (cs1, es.store, es.log, .error e)
      | (es, .ok output_map) =>
        (cs1, es.store, es.log,
          .ok { is_copy_successful := true
                output_map := some output_map
                ignored_map := cs1.mut_ignored_map.getD []
                set_to_filter_map := cs1.mut_set_to_filter_map.getD []
                reason := none })

/-! ## Auxiliary definitions used by the verification statements -/

/-- Nested read of the reference map: `stf[model][field]` when both levels
are present. -/
def stfGetField (set_to_filter_map : SetToFilterMap) (model field : String) :
    Option FieldSetToFilterMap :=
  (dictLookup set_to_filter_map model).bind (fun group => dictLookup group field)

/-- Whether a configured field takes part in the compound extra filter:
an `UPDATE_TO_COPIED` action not referencing the node's own model. -/
def is_update_reference_field (model : String)
    (p : String × FieldCopyConfigBase × Option ModelCopyConfig) : Bool :=
  p.2.1.action == CopyActions.UPDATE_TO_COPIED &&
    p.2.1.reference_to != model

/-- The claim's partition, mandatory side: the claim under check reads
"mandatory (non-nullable FK or to-many)". -/
def claimed_mandatory_fields (model_config : ModelCopyConfig) : List String :=
  model_config.field_copy_actions.filterMap (fun p =>
    if is_update_reference_field model_config.model p then
      match p.2.1.descr with
      | some (.forwardFK _ false _) => some p.1
      | some (.manyToMany _) => some p.1
      | _ => none
    else none)

/-- The claim's partition, nullable side: only nullable foreign keys. -/
def claimed_nullable_fields (model_config : ModelCopyConfig) : List String :=
  model_config.field_copy_actions.filterMap (fun p =>
    if is_update_reference_field model_config.model p then
      match p.2.1.descr with
      | some (.forwardFK _ true _) => some p.1
      | _ => none
    else none)

/-- The compound extra filter exactly as the claim under check states it:
partition into mandatory = (non-nullable fk or to-many) and nullable =
(nullable fk); if some mandatory field has a non-empty affected set,
conjoin `(f in ids) ∨ (f is null)` over qualifying mandatory and nullable
fields; otherwise build the disjunction where every other nullable field
is constrained with **its own** affected set. -/
def claimedCompoundFilter (model_config : ModelCopyConfig)
    (affected_map : ValidationAffectedMap) : QExpr :=
  let ids := compound_affected_ids model_config affected_map
  let mand := claimed_mandatory_fields model_config
  let nul := claimed_nullable_fields model_config
  let mandQ := mand.filter (fun f => !(ids f).isEmpty)
  let nulQ := nul.filter (fun f => !(ids f).isEmpty)
  if !mandQ.isEmpty then
    (mandQ ++ nulQ).foldl
      (fun acc f => qand acc (qor (.qIn f (ids f)) (.qEqNull f))) .qEmpty
  else
    nulQ.foldl (fun acc f =>
      qor acc ((nul.filter (fun o => o != f)).foldl
        (fun comb o =>
          if (ids o).isEmpty then comb
          else qand comb (qor (.qIn o (ids o)) (.qEqNull o)))
        (.qIn f (ids f)))) .qEmpty

/-- The code's partition, mandatory side: non-nullable foreign keys only
(the source files a `ManyToManyDescriptor` under the nullable list). -/
def amended_mandatory_of (model : String) :
    List (String × FieldCopyConfigBase × Option ModelCopyConfig) →
      List String
  | [] => []
  | p :: rest =>
    if p.2.1.action != CopyActions.UPDATE_TO_COPIED then
      amended_mandatory_of model rest
    else if p.2.1.reference_to == model then
      amended_mandatory_of model rest
    else
      match p.2.1.descr with
      | some (.forwardFK _ false _) => p.1 :: amended_mandatory_of model rest
      | _ => amended_mandatory_of model rest

/-- The code's partition, nullable side: nullable foreign keys and
many-to-many fields. -/
def amended_nullable_of (model : String) :
    List (String × FieldCopyConfigBase × Option ModelCopyConfig) →
      List String
  | [] => []
  | p :: rest =>
    if p.2.1.action != CopyActions.UPDATE_TO_COPIED then
      amended_nullable_of model rest
    else if p.2.1.reference_to == model then
      amended_nullable_of model rest
    else
      match p.2.1.descr with
      | some (.forwardFK _ true _) => p.1 :: amended_nullable_of model rest
      | some (.manyToMany _) => p.1 :: amended_nullable_of model rest
      | _ => amended_nullable_of model rest

/-- The compound extra filter as the code actually computes it, stated in
the spec's partition-then-branch style: to-many fields are classed
nullable, and in the nullable-only disjunction every other field's
`(other in ids) ∨ (other is null)` constraint uses the affected-id list
of the **current** field's referenced model (the source reads
`field_copy_actions[field_name]` where its loop variable is
`other_field`). -/
def amendedCompoundFilter (model_config : ModelCopyConfig)
    (affected_map : ValidationAffectedMap) : QExpr :=
  let ids := compound_affected_ids model_config affected_map
  let mand := amended_mandatory_of model_config.model
    model_config.field_copy_actions
  let nul := amended_nullable_of model_config.model
    model_config.field_copy_actions
  let mandQ := mand.filter (fun f => !(ids f).isEmpty)
  if !mandQ.isEmpty then
    (mandQ ++ nul.filter (fun f => !(ids f).isEmpty)).foldl
      (fun acc f => qand acc (qor (.qIn f (ids f)) (.qEqNull f))) .qEmpty
  else
    nul.foldl (fun acc f =>
      if (ids f).isEmpty then acc
      else
        qor acc ((nul.filter (fun o => o != f)).foldl
          (fun comb o => qand comb (qor (.qIn o (ids f)) (.qEqNull o)))
          (.qIn f (ids f)))) .qEmpty

/-- Decidable equality of `Except` results, for evaluating concrete
scenarios. -/
instance {ε α : Type} [DecidableEq ε] [DecidableEq α] :
    DecidableEq (Except ε α) := fun x y =>
  match x, y with
  | .ok a, .ok b =>
    if h : a = b then .isTrue (by rw [h]) else .isFalse (by simp [h])
  | .error a, .error b =>
    if h : a = b then .isTrue (by rw [h]) else .isFalse (by simp [h])
  | .ok _, .error _ => .isFalse (by simp)
  | .error _, .ok _ => .isFalse (by simp)

/-! ## Concrete example fixtures

Small stores, configs and requests used to evaluate the engine on closed
inputs (scenario witnesses and counterexamples). -/

/-- A compound config with a single many-to-many `UPDATE_TO_COPIED`
field, the minimal configuration separating the claimed and actual
compound-filter partitions. -/
def ex6_config : ModelCopyConfig :=
  .mk "RouteAttribute" [] .qEmpty
    [("routes", { action := .UPDATE_TO_COPIED, reference_to := "Route",
                  descr := some (.manyToMany
                    ⟨"RouteAttribute_routes", "routeattribute_id",
                      "route_id", "Route"⟩) }, none)]
    [] none [] []

/-- Affected map for the compound-filter example: one copied Route. -/
def ex6_affected : ValidationAffectedMap := [("Route", [5])]

/-- A root config with one `TAKE_FROM_ORIGIN` field and one declarative
`SET_TO_FILTER` fk field. -/
def ex4_config : ModelCopyConfig :=
  .mk "Doc" [("scenario_id", "origin_scenario_id")] .qEmpty
    [("name", { action := .TAKE_FROM_ORIGIN, descr := some .scalarField },
      none),
     ("ref", { action := .SET_TO_FILTER, reference_to := "Tgt",
               filter_config := { filters :=
                 [("scenario_id",
                   { source := .FROM_INPUT, key := "target_scenario_id" }),
                  ("name", { source := .FROM_ORIGIN })] },
               descr := some (.forwardFK "ref_id" true "Tgt") }, none)]
    [] none [] []

/-- Store for the set-to-filter-miss scenario: one Doc referencing Tgt 10
in scenario 1; scenario 2 holds no matching Tgt. -/
def ex4_store : Store :=
  { models :=
      [("Doc", [⟨1, [("scenario_id", [1]), ("name", [7]), ("ref_id", [10])]⟩]),
       ("Tgt", [⟨10, [("scenario_id", [1]), ("name", [3])]⟩])]
    nextPk := 100 }

/-- Input data of the scenario: copy from scenario 1 into scenario 2. -/
def ex4_input : InputData :=
  [("origin_scenario_id", 1), ("target_scenario_id", 2)]

/-- First submission: no confirmation, no prior snapshot. -/
def ex4_request1 : CopyRequest :=
  { input_data := ex4_input, config := ⟨[ex4_config]⟩ }

/-- The reference map the first submission reports. -/
def ex4_fresh_stf : SetToFilterMap := [("Doc", [("ref", [(10, none)])])]

/-- Resubmission: `confirm_write` with the reported snapshot attached. -/
def ex4_request2 : CopyRequest :=
  { input_data := ex4_input, config := ⟨[ex4_config]⟩, confirm_write := true,
    set_to_filter_map := some ex4_fresh_stf, ignored_map := some [] }

/-- An oracle that accepts every insert. -/
def acceptAll : InsertOracle := fun _ _ => true

/-- A single-root config whose only field copies `name` verbatim. -/
def ex2_entity_config : ModelCopyConfig :=
  .mk "Doc" [("scenario_id", "osid")] .qEmpty
    [("name", { action := .TAKE_FROM_ORIGIN, descr := some .scalarField },
      none)]
    [] none [] []

/-- Store for the failing-bulk-create scenarios. -/
def ex2_store : Store :=
  { models := [("Doc", [⟨1, [("scenario_id", [1]), ("name", [7])]⟩])]
    nextPk := 50 }

/-- Request for the failing-bulk-create scenarios. -/
def ex2_request : CopyRequest :=
  { input_data := [("osid", 1)], config := ⟨[ex2_entity_config]⟩ }

/-- A config whose root copies a scalar and a many-to-many field. -/
def ex2_m2m_config : ModelCopyConfig :=
  .mk "A" [("scenario_id", "osid")] .qEmpty
    [("name", { action := .TAKE_FROM_ORIGIN, descr := some .scalarField },
      none),
     ("bs", { action := .TAKE_FROM_ORIGIN, reference_to := "B",
              descr := some (.manyToMany ⟨"A_B", "a_id", "b_id", "B"⟩) },
      none)]
    [] none [] []

/-- Store for the junction-row failure scenario: A 1 linked to B 50. -/
def ex2_m2m_store : Store :=
  { models := [("A", [⟨1, [("scenario_id", [1]), ("name", [7])]⟩]),
               ("A_B", [⟨100, [("a_id", [1]), ("b_id", [50])]⟩])]
    nextPk := 200 }

/-- Request for the junction-row failure scenario. -/
def ex2_m2m_request : CopyRequest :=
  { input_data := [("osid", 1)], config := ⟨[ex2_m2m_config]⟩ }

/-- Child config of the ignore-propagation scenario: B's `node` fk is
matched into the target scenario by point. -/
def ex7_child_config : ModelCopyConfig :=
  .mk "B" [] .qEmpty
    [("node", { action := .SET_TO_FILTER, reference_to := "Node",
                filter_config := { filters :=
                  [("scenario_id", { source := .FROM_INPUT, key := "tsid" }),
                   ("point", { source := .FROM_ORIGIN })] },
                descr := some (.forwardFK "node_id" false "Node") }, none)]
    [] none [] []

/-- Root config of the ignore-propagation scenario: A makes copies of its
B children and ignores any A reaching an unmatched node. -/
def ex7_config : ModelCopyConfig :=
  .mk "A" [("scenario_id", "osid")] .qEmpty
    [("name", { action := .TAKE_FROM_ORIGIN, descr := some .scalarField },
      none),
     ("bs", { action := .MAKE_COPY, descr := some (.reverseFK "a_id" "B") },
      some ex7_child_config)]
    []
    (some { filter_conditions := [{ filter_name := "bs__node__in",
                                    set_to_filter_origin_model := "B",
                                    set_to_filter_field_name := "node" }] })
    [] []

/-- Store of the ignore-propagation scenario: A 1 reaches the unmatched
node 10 through B 5; A 2 reaches node 11, matched by node 20. -/
def ex7_store : Store :=
  { models :=
      [("A", [⟨1, [("scenario_id", [1]), ("name", [7]), ("bs__node", [10])]⟩,
              ⟨2, [("scenario_id", [1]), ("name", [8]), ("bs__node", [11])]⟩]),
       ("B", [⟨5, [("a_id", [1]), ("node_id", [10])]⟩,
              ⟨6, [("a_id", [2]), ("node_id", [11])]⟩]),
       ("Node", [⟨10, [("scenario_id", [1]), ("point", [77])]⟩,
                 ⟨11, [("scenario_id", [1]), ("point", [88])]⟩,
                 ⟨20, [("scenario_id", [2]), ("point", [88])]⟩])]
    nextPk := 1000 }

/-- Input of the ignore-propagation scenario. -/
def ex7_input : InputData := [("osid", 1), ("tsid", 2)]

/-- First submission of the ignore-propagation scenario. -/
def ex7_request1 : CopyRequest :=
  { input_data := ex7_input, config := ⟨[ex7_config]⟩ }

/-- Confirmed resubmission with the reported snapshot attached. -/
def ex7_request2 : CopyRequest :=
  { input_data := ex7_input, config := ⟨[ex7_config]⟩, confirm_write := true,
    set_to_filter_map := some [("B", [("node", [(10, none), (11, some 20)])])],
    ignored_map := some [("A", [1])] }

/-- A root config violating the `filter_field_to_input_key` requirement. -/
def ex10_bad_config : ModelCopyConfig := .mk "Doc" [] .qEmpty [] [] none [] []

/-- Request wrapping the invalid root config. -/
def ex10_request : CopyRequest :=
  { input_data := [], config := ⟨[ex10_bad_config]⟩ }

/-- Descriptor of the m2m field in the instruction-multiplication
example. -/
def ex9_descr : M2MDescriptor := ⟨"A_B", "a_id", "b_id", "B"⟩

/-- Store of the instruction-multiplication example: A 1 linked to B 50,
A 2 unlinked. -/
def ex9_store : Store :=
  { models := [("A", [⟨1, [("x", [0])]⟩, ⟨2, [("x", [0])]⟩]),
               ("A_B", [⟨100, [("a_id", [1]), ("b_id", [50])]⟩])]
    nextPk := 200 }

/-- The two fresh copy intents of the instruction-multiplication
example. -/
def ex9_intents : List CopyIntent :=
  [⟨⟨1, [("x", [0])]⟩, [], [], none⟩, ⟨⟨2, [("x", [0])]⟩, [], [], none⟩]

/-- The value the matching fold stores for one referenced entity: the
first substitute agreeing on every `FROM_ORIGIN` filter field, or none. -/
def first_substitute_match (field_copy_config : FieldCopyConfigBase)
    (substitute_instance_list : List Entity) (r : Entity) : Option Nat :=
  (substitute_instance_list.find? (fun s =>
    (field_copy_config.filter_config.filters.filter
      (fun p => p.2.source == FilterSource.FROM_ORIGIN)).all
      (fun p => getAttr s p.1 == getAttr r p.1))).map (·.pk)

/-- The single m2m instruction `_save_m2m_fields_values` builds for a
`TAKE_FROM_ORIGIN` many-to-many field (all mode flags false). -/
def m2m_instruction (field_name : String) (d : M2MDescriptor)
    (from_model : String) (related_id_list : List Nat) : M2MCopyIntent :=
  { field_name := field_name
    related_id_list := related_id_list
    backward_id_key := d.backward_id_key
    forward_id_key := d.forward_id_key
    through_model := d.through_model
    from_model := from_model
    to_model := d.related_model
    use_copied_related_instances := false
    use_set_to_filter_values := false }

/-- One pass of `_save_m2m_fields_values` over the intent list with all
mode flags false, as a pure per-intent map: an intent with a non-empty
linked-id entry gains one pending instruction, the others are
unchanged. -/
def m2m_append_step (m2m_map : List (Nat × List Nat)) (field_name : String)
    (d : M2MDescriptor) (from_model : String) (ci : CopyIntent) :
    CopyIntent :=
  match dictLookup m2m_map ci.origin.pk with
  | none => ci
  | some ids =>
    if ids.isEmpty then ci
    else { ci with m2m_copy_intent_list :=
        ci.m2m_copy_intent_list ++
          [m2m_instruction field_name d from_model ids] }

/-- Every intent of `res` keeps the origin of some intent of `base`:
the execution-pass field evaluators only transform or remove intents,
never invent one. -/
def originsFrom (res base : List CopyIntent) : Prop :=
  ∀ ci' ∈ res, ∃ ci ∈ base, ci'.origin = ci.origin

/-!
# Theorems

Everything below is verification: claim theorems (named `cN_...`),
their supporting lemmas, witnesses and counterexamples.
-/

/-- C1, amended claim: for every request the gate returns exactly the
outcome of the §4.4 decision table with its `| * | yes | true |
yes/absent | proceed |` cell corrected — when the ignored map is
non-empty, `confirm_write` is true and the prior ignored map matches or
is absent, the gate still aborts `DATA_CHANGED` on the reference map if
unresolved references exist and a supplied prior reference map differs
from the fresh one, and proceeds otherwise. -/
theorem c1_gate_decision_table (confirmWrite : Bool)
    (priorStf : Option SetToFilterMap) (priorIgnored : Option IgnoredMap)
    (stf : SetToFilterMap) (ignored : IgnoredMap) :
    gateAbortReason confirmWrite priorStf priorIgnored stf ignored =
      amendedGateOutcome confirmWrite priorStf priorIgnored stf ignored := by
  unfold gateAbortReason amendedGateOutcome
  cases h1 : isMissingValuesInSetToFilterMap stf <;>
    cases confirmWrite <;> cases priorStf <;> cases priorIgnored <;>
    simp_all

/-- C1, counterexample to the claim as stated: with an unresolved
reference entry, a non-empty ignored map, `confirm_write = true`, a
matching prior ignored map and a *differing* prior reference map, the
claim's decision table (`| * | yes | true | yes/absent | proceed |`)
proceeds, but `_check_should_abort` aborts with `DATA_CHANGED_STF`. -/
theorem c1_counterexample :
    gateAbortReason true (some [("A", [("f", [(1, some 2)])])])
        (some [("B", [5])]) [("A", [("f", [(1, none)])])] [("B", [5])] =
      some .DATA_CHANGED_STF ∧
    claimedGateOutcome true (some [("A", [("f", [(1, some 2)])])])
        (some [("B", [5])]) [("A", [("f", [(1, none)])])] [("B", [5])] =
      none := by
  exact ⟨by decide, by decide⟩

/-! ### Compound extra-filter policy (C6) -/

theorem partition_compound_fields_eq (model : String)
    (fields : List (String × FieldCopyConfigBase × Option ModelCopyConfig))
    (fk nul : List String)
    (h : partition_compound_fields model fields = .ok (fk, nul)) :
    fk = amended_mandatory_of model fields ∧
      nul = amended_nullable_of model fields := by
  induction fields generalizing fk nul with
  | nil =>
    simp only [partition_compound_fields] at h
    cases h
    exact ⟨rfl, rfl⟩
  | cons p rest ih =>
    obtain ⟨name, fcc, sub⟩ := p
    simp only [partition_compound_fields, amended_mandatory_of,
      amended_nullable_of] at h ⊢
    by_cases h1 : (fcc.action != CopyActions.UPDATE_TO_COPIED) = true
    · simp only [h1, if_true] at h ⊢
      exact ih fk nul h
    · rw [Bool.not_eq_true] at h1
      simp only [h1, Bool.false_eq_true, if_false] at h ⊢
      by_cases h2 : (fcc.reference_to == model) = true
      · simp only [h2, if_true] at h ⊢
        exact ih fk nul h
      · rw [Bool.not_eq_true] at h2
        simp only [h2, Bool.false_eq_true, if_false] at h ⊢
        cases hd : fcc.descr with
        | none => rw [hd] at h; exact absurd h (by simp)
        | some d =>
          rw [hd] at h
          cases d with
          | forwardFK a nb r =>
            cases nb with
            | false =>
              cases hr : partition_compound_fields model rest with
              | error e => rw [hr] at h; exact absurd h (by simp [Except.map])
              | ok pr =>
                rw [hr] at h
                simp only [Except.map, Except.ok.injEq, Prod.mk.injEq] at h
                obtain ⟨h3, h4⟩ := h
                obtain ⟨ihl, ihr⟩ := ih pr.1 pr.2 (by rw [hr])
                constructor
                · rw [← h3, ihl]
                · rw [← h4, ihr]
            | true =>
              cases hr : partition_compound_fields model rest with
              | error e => rw [hr] at h; exact absurd h (by simp [Except.map])
              | ok pr =>
                rw [hr] at h
                simp only [Except.map, Except.ok.injEq, Prod.mk.injEq] at h
                obtain ⟨h3, h4⟩ := h
                obtain ⟨ihl, ihr⟩ := ih pr.1 pr.2 (by rw [hr])
                constructor
                · rw [← h3, ihl]
                · rw [← h4, ihr]
          | manyToMany d =>
            cases hr : partition_compound_fields model rest with
            | error e => rw [hr] at h; exact absurd h (by simp [Except.map])
            | ok pr =>
              rw [hr] at h
              simp only [Except.map, Except.ok.injEq, Prod.mk.injEq] at h
              obtain ⟨h3, h4⟩ := h
              obtain ⟨ihl, ihr⟩ := ih pr.1 pr.2 (by rw [hr])
              constructor
              · rw [← h3, ihl]
              · rw [← h4, ihr]
          | scalarField => exact absurd h (by simp)
          | reverseFK a m => exact absurd h (by simp)

theorem qTruthy_qand (a b : QExpr) : qTruthy (qand a b) = (qTruthy a || qTruthy b) := by
  cases a <;> cases b <;> rfl

theorem qand_qEmpty_left (b : QExpr) : qand .qEmpty b = b := by
  cases b <;> rfl

theorem compound_conjunction_eq (model_config : ModelCopyConfig)
    (affected_map : ValidationAffectedMap) (l : List String) (acc : QExpr) :
    compound_conjunction model_config affected_map l acc =
      (l.filter (fun f =>
        !(compound_affected_ids model_config affected_map f).isEmpty)).foldl
        (fun acc f => qand acc
          (qor (.qIn f (compound_affected_ids model_config affected_map f))
            (.qEqNull f))) acc := by
  induction l generalizing acc with
  | nil => rfl
  | cons f l ih =>
    simp only [compound_conjunction, List.foldl_cons, List.filter_cons] at *
    by_cases hf : (compound_affected_ids model_config affected_map f).isEmpty
    · simp only [hf, if_true, Bool.not_true, Bool.false_eq_true, if_false]
      exact ih acc
    · rw [Bool.not_eq_true] at hf
      simp only [hf, Bool.false_eq_true, if_false, Bool.not_false, if_true,
        List.foldl_cons]
      exact ih _

theorem compound_conjunction_truthy (model_config : ModelCopyConfig)
    (affected_map : ValidationAffectedMap) (l : List String) (acc : QExpr) :
    qTruthy (compound_conjunction model_config affected_map l acc) =
      (qTruthy acc || !(l.filter (fun f =>
        !(compound_affected_ids model_config affected_map f).isEmpty)).isEmpty) := by
  rw [compound_conjunction_eq]
  generalize (l.filter (fun f =>
    !(compound_affected_ids model_config affected_map f).isEmpty)) = l'
  induction l' generalizing acc with
  | nil => simp
  | cons f l' ih =>
    rw [List.foldl_cons, ih, qTruthy_qand]
    have hD : qTruthy (qor (QExpr.qIn f (compound_affected_ids model_config
        affected_map f)) (QExpr.qEqNull f)) = true := rfl
    rw [hD]
    simp

theorem compound_nullable_disjunction_eq (model_config : ModelCopyConfig)
    (affected_map : ValidationAffectedMap) (nul : List String) :
    compound_nullable_disjunction model_config affected_map nul =
      nul.foldl (fun acc f =>
        if (compound_affected_ids model_config affected_map f).isEmpty then acc
        else
          qor acc ((nul.filter (fun o => o != f)).foldl
            (fun comb o => qand comb
              (qor (.qIn o (compound_affected_ids model_config affected_map f))
                (.qEqNull o)))
            (.qIn f (compound_affected_ids model_config affected_map f))))
        .qEmpty := by
  unfold compound_nullable_disjunction
  apply List.foldl_ext
  intro acc f _
  by_cases hf : (compound_affected_ids model_config affected_map f).isEmpty
  · simp only [hf, if_true]
  · rw [Bool.not_eq_true] at hf
    simp only [hf, Bool.false_eq_true, if_false]

/-- C6, amended claim: the compound extra filter is built by partitioning
the node's `UPDATE_TO_COPIED` reference fields into mandatory
(**non-nullable fk only** — to-many fields are classed nullable) and
nullable (nullable fk or to-many); with a qualifying mandatory field the
filter conjoins `(f in ids) ∨ (f is null)` over qualifying mandatory and
nullable fields; otherwise it is the disjunction over nullable fields in
which every *other* nullable field's in-or-null constraint uses the
affected-id list of the **current** field's referenced model; an empty
filter makes callers skip the compound node. -/
theorem c6_compound_filter_policy (model_config : ModelCopyConfig)
    (affected_map : ValidationAffectedMap) (fk nul : List String)
    (h : partition_compound_fields model_config.model
      model_config.field_copy_actions = .ok (fk, nul)) :
    get_extra_filters_for_compound_actions model_config affected_map =
      .ok (amendedCompoundFilter model_config affected_map) := by
  obtain ⟨hfk, hnul⟩ := partition_compound_fields_eq _ _ _ _ h
  unfold get_extra_filters_for_compound_actions amendedCompoundFilter
  simp only [h]
  subst hfk hnul
  rw [compound_conjunction_truthy]
  simp only [qTruthy, Bool.false_or]
  by_cases hm : ((amended_mandatory_of model_config.model
      model_config.field_copy_actions).filter (fun f =>
      !(compound_affected_ids model_config affected_map f).isEmpty)).isEmpty
  · simp only [hm, Bool.not_true, Bool.false_eq_true, if_false]
    rw [List.isEmpty_iff] at hm
    rw [compound_conjunction_eq, hm, List.foldl_nil]
    rw [compound_nullable_disjunction_eq, qand_qEmpty_left]
  · rw [Bool.not_eq_true] at hm
    simp only [hm, Bool.not_false, if_true]
    rw [compound_conjunction_eq, compound_conjunction_eq,
      ← List.foldl_append]

/-- C6, counterexample to the claim as stated: for a compound node with a
single many-to-many `UPDATE_TO_COPIED` field and a non-empty affected
set, the claim's partition (to-many is mandatory) yields
`(routes in ids) ∨ (routes is null)` while the code classes the field
nullable and yields the bare `routes in ids`; the two filters disagree on
an entity with no links. -/
theorem c6_counterexample :
    get_extra_filters_for_compound_actions ex6_config ex6_affected =
      .ok (.qIn "routes" [5]) ∧
    claimedCompoundFilter ex6_config ex6_affected =
      .qOr (.qIn "routes" [5]) (.qEqNull "routes") ∧
    evalQ (.qIn "routes" [5]) ⟨1, [("routes", [])]⟩ = false ∧
    evalQ (.qOr (.qIn "routes" [5]) (.qEqNull "routes"))
      ⟨1, [("routes", [])]⟩ = true := by
  exact ⟨by decide, by decide, by decide, by decide⟩

/-- C6, witness: the amended-policy theorem applied to the concrete
compound config. -/
theorem c6_witness :
    get_extra_filters_for_compound_actions ex6_config ex6_affected =
      .ok (amendedCompoundFilter ex6_config ex6_affected) :=
  c6_compound_filter_policy ex6_config ex6_affected [] ["routes"] (by decide)

/-! ### Idempotence of validation (C3) -/

/-- C3: validation is a deterministic, read-only function of store state
and request parameters.  `validate_config` resets every accumulator at
entry, so two `Copyist` instances over the same request and store — with
arbitrary (even stale) values in their four mutable attributes — raise
the same outcome and produce identical `validation_affected_map` and
`ignored_map` attributes, and identical `set_to_filter_map` snapshots
whenever validation succeeds.  Read-only-ness is structural: the
embedding of the validation pass consumes the store without producing
one. -/
theorem c3_validation_idempotent (store : Store) (req : CopyRequest)
    (a1 a2 : Option SetToFilterMap) (b1 b2 : Option ValidationAffectedMap)
    (c1 c2 : Option IgnoredMap) (d1 d2 : Option (List IgnoreEvaluation)) :
    ((validate_config store ⟨req, a1, b1, c1, d1⟩).2 =
      (validate_config store ⟨req, a2, b2, c2, d2⟩).2) ∧
    ((validate_config store ⟨req, a1, b1, c1, d1⟩).1.mut_validation_affected_map =
      (validate_config store ⟨req, a2, b2, c2, d2⟩).1.mut_validation_affected_map) ∧
    ((validate_config store ⟨req, a1, b1, c1, d1⟩).1.mut_ignored_map =
      (validate_config store ⟨req, a2, b2, c2, d2⟩).1.mut_ignored_map) ∧
    ((validate_config store ⟨req, a1, b1, c1, d1⟩).2 = none →
      (validate_config store ⟨req, a1, b1, c1, d1⟩).1.mut_set_to_filter_map =
        (validate_config store ⟨req, a2, b2, c2, d2⟩).1.mut_set_to_filter_map) := by
  unfold validate_config
  cases hr : validate_roots store req.input_data req.config.model_configs {} with
  | mk vs1 e1 =>
    cases e1 with
    | some e => simp [hr]
    | none =>
      cases hr2 : resolve_ignore_conditions store req.input_data
          vs1.ignore_conditions_to_resolve vs1.set_to_filter_map
          vs1.ignored_map with
      | mk ign2 e2 =>
        cases e2 with
        | some e => simp [hr, hr2]
        | none => simp [hr, hr2]

/-- C3, witness: the determinism theorem applied at the concrete
set-to-filter store and request, with two different stale instance
states. -/
theorem c3_witness :
    (validate_config ex4_store
        ⟨ex4_request1, none, none, none, none⟩).1.mut_validation_affected_map =
      (validate_config ex4_store
        ⟨ex4_request1, some [("junk", [])], some [("stale", [9])],
          some [("old", [3])], some []⟩).1.mut_validation_affected_map ∧
    (validate_config ex4_store
        ⟨ex4_request1, none, none, none, none⟩).1.mut_set_to_filter_map =
      (validate_config ex4_store
        ⟨ex4_request1, some [("junk", [])], some [("stale", [9])],
          some [("old", [3])], some []⟩).1.mut_set_to_filter_map := by
  refine ⟨(c3_validation_idempotent ex4_store ex4_request1 none
    (some [("junk", [])]) none (some [("stale", [9])]) none
    (some [("old", [3])]) none (some [])).2.1, ?_⟩
  exact (c3_validation_idempotent ex4_store ex4_request1 none
    (some [("junk", [])]) none (some [("stale", [9])]) none
    (some [("old", [3])]) none (some [])).2.2.2 (by rfl)

/-! ### Snapshot access before validation (C10) -/

/-- C10, amended claim: on a `Copyist` instance on which `validate_config`
has never been invoked, reading `set_to_filter_map`,
`validation_affected_map` or `ignored_map` raises `AttributeError`; and
`set_to_filter_map` keeps raising `AttributeError` after any
`validate_config` invocation that itself raises.  (After a failed
invocation the other two properties already return the maps assigned at
entry — see the counterexample.) -/
theorem validate_config_error_keeps_stf (store : Store) (cs : CopyistState) :
    (validate_config store cs).2 ≠ none →
      (validate_config store cs).1.mut_set_to_filter_map =
        cs.mut_set_to_filter_map := by
  unfold validate_config
  cases hr : validate_roots store cs.request.input_data
      cs.request.config.model_configs {} with
  | mk vs1 e1 =>
    cases e1 with
    | some e => simp [hr]
    | none =>
      cases hr2 : resolve_ignore_conditions store cs.request.input_data
          vs1.ignore_conditions_to_resolve vs1.set_to_filter_map
          vs1.ignored_map with
      | mk ign2 e2 =>
        cases e2 with
        | some e => simp [hr, hr2]
        | none => intro h; exact absurd (by simp [hr, hr2]) h

theorem c10_snapshot_access (req : CopyRequest) (store : Store) :
    (copyistInit req).set_to_filter_map =
      .error (.attributeError "set_to_filter_map referenced before validation") ∧
    (copyistInit req).validation_affected_map =
      .error (.attributeError "validation_affected_map referenced before validation") ∧
    (copyistInit req).ignored_map =
      .error (.attributeError "ignored_map referenced before validation") ∧
    ((validate_config store (copyistInit req)).2 ≠ none →
      (validate_config store (copyistInit req)).1.set_to_filter_map =
        .error (.attributeError "set_to_filter_map referenced before validation")) := by
  refine ⟨rfl, rfl, rfl, fun hfail => ?_⟩
  have hkeep := validate_config_error_keeps_stf store (copyistInit req) hfail
  unfold CopyistState.set_to_filter_map
  rw [hkeep]
  rfl

/-- C10, witness: the amended theorem applied to the config whose root
lacks `filter_field_to_input_key`, whose validation raises. -/
theorem c10_witness :
    (validate_config ex2_store (copyistInit ex10_request)).1.set_to_filter_map =
      .error (.attributeError "set_to_filter_map referenced before validation") :=
  (c10_snapshot_access ex10_request ex2_store).2.2.2 (by decide)

/-- C10, counterexample to the claim as stated: `validate_config` on the
bad root config raises (so it never completes), yet reading
`validation_affected_map` and `ignored_map` afterwards returns empty
maps instead of raising `AttributeError` — the accumulators are assigned
to the instance before the config check runs. -/
theorem c10_counterexample :
    (validate_config ex2_store (copyistInit ex10_request)).2 ≠ none ∧
    (validate_config ex2_store (copyistInit ex10_request)).1.validation_affected_map =
      .ok [] ∧
    (validate_config ex2_store (copyistInit ex10_request)).1.ignored_map =
      .ok [] := by
  exact ⟨by decide, by decide, by decide⟩

/-! ### All-or-nothing execution (C2) -/

/-- C2, amended claim: for every admitted request the whole execution
pass runs inside one store transaction: if `execute_copy` fails at any
point with any exception, `execute_copy_request` re-raises it and the
resulting store is exactly the pre-transaction store (no entity, junction
row or hook-performed deletion survives), while the log survives the
rollback; and an `IntegrityError` raised by a node's entity
`bulk_create` is logged with the failing entity type before propagating.
(A junction-row `bulk_create` failure propagates without a log entry —
see the counterexample.) -/
theorem build_copies_to_create_error (out : OutputMap)
    (parent : Option (String × String)) (intents : List CopyIntent)
    (e : PyErr)
    (h : build_copies_to_create out parent intents = .error e) :
    e = .keyError := by
  induction intents with
  | nil => simp [build_copies_to_create] at h
  | cons ci rest ih =>
    unfold build_copies_to_create at h
    cases parent with
    | none =>
      dsimp only at h
      cases hr : build_copies_to_create out none rest with
      | error e' =>
        rw [hr] at h
        simp only [Except.map, Except.error.injEq] at h
        exact ih (h ▸ hr)
      | ok l => rw [hr] at h; simp [Except.map] at h
    | some pr =>
      obtain ⟨rfn, rmn⟩ := pr
      dsimp only at h
      cases h1 : dictLookup out rmn with
      | none => simp only [h1] at h; simp_all
      | some parent_map =>
        simp only [h1] at h
        cases h2 : getScalar ci.origin rfn with
        | none => simp only [h2] at h; simp_all
        | some pid =>
          simp only [h2] at h
          cases h3 : dictLookup parent_map pid with
          | none => simp only [h3] at h; simp_all
          | some cpid =>
            simp only [h3] at h
            cases hr : build_copies_to_create out (some (rfn, rmn)) rest with
            | error e' =>
              rw [hr] at h
              simp only [Except.map, Except.error.injEq] at h
              exact ih (h ▸ hr)
            | ok l => rw [hr] at h; simp [Except.map] at h

theorem c2_atomic_execution (oracle : InsertOracle) (store : Store)
    (cs cs1 : CopyistState) (e : PyErr) (es' : EState)
    (hval : validate_config store cs = (cs1, none))
    (hgate : check_should_abort cs1 = .ok none)
    (hexec : execute_copy
      { input_data := cs1.request.input_data
        set_to_filter_map := cs1.mut_set_to_filter_map.getD []
        ignored_map := cs1.mut_ignored_map.getD []
        oracle := oracle }
      cs1.request.config.model_configs { store := store, log := [] } =
      (es', .error e)) :
    execute_copy_request oracle store cs = (cs1, store, es'.log, .error e) ∧
    (∀ (out : OutputMap) (model : String) (intents : List CopyIntent)
        (parent : Option (String × String)) (es0 es1 : EState) (m : String),
      execute_copy_intent_list oracle out model intents parent es0 =
          (es1, .error (.integrityError m)) →
        m = model ∧ es1.store = es0.store ∧
          es1.log = es0.log ++ ["Error on creating " ++ model]) := by
  constructor
  · unfold execute_copy_request
    rw [hval]
    dsimp only
    rw [hgate]
    dsimp only
    unfold atomic_run
    dsimp only
    rw [hexec]
  · intro out model intents parent es0 es1 m h
    unfold execute_copy_intent_list at h
    cases hb : build_copies_to_create out parent intents with
    | error eb =>
      rw [hb] at h
      simp only [Prod.mk.injEq, Except.error.injEq] at h
      obtain ⟨-, h2⟩ := h
      have hkey := build_copies_to_create_error out parent intents eb hb
      rw [h2] at hkey
      exact absurd hkey (by simp)
    | ok copies =>
      rw [hb] at h
      by_cases hempty : copies.isEmpty
      · simp [hempty] at h
      · simp only [hempty, Bool.false_eq_true, if_false] at h
        cases hbc : es0.store.bulkCreate oracle model copies with
        | ok pr => rw [hbc] at h; simp at h
        | error ebc =>
          rw [hbc] at h
          unfold Store.bulkCreate at hbc
          by_cases hall : copies.all (fun r => oracle model r)
          · simp [hall] at hbc
          · simp only [hall, Bool.false_eq_true, if_false,
              Except.error.injEq] at hbc
            subst hbc
            simp only [Prod.mk.injEq, Except.error.injEq,
              PyErr.integrityError.injEq] at h
            obtain ⟨h1, h2⟩ := h
            subst h1
            exact ⟨h2.symm, rfl, rfl⟩

/-- C2, witness: with an oracle rejecting `Doc` rows, the node's entity
bulk-create fails; the amended theorem instantiated there shows the
request returns the untouched store, the `IntegrityError`, and the log
entry naming the failing entity type. -/
theorem c2_witness :
    (execute_copy_request (fun m _ => m != "Doc") ex2_store
        (copyistInit ex2_request)).2 =
      (ex2_store, ["Error on creating Doc"],
        .error (.integrityError "Doc")) := by
  have h := (c2_atomic_execution (fun m _ => m != "Doc") ex2_store
    (copyistInit ex2_request)
    ((validate_config ex2_store (copyistInit ex2_request)).1)
    (.integrityError "Doc")
    (execute_copy
      { input_data := ((validate_config ex2_store
          (copyistInit ex2_request)).1).request.input_data
        set_to_filter_map := ((validate_config ex2_store
          (copyistInit ex2_request)).1).mut_set_to_filter_map.getD []
        ignored_map := ((validate_config ex2_store
          (copyistInit ex2_request)).1).mut_ignored_map.getD []
        oracle := fun m _ => m != "Doc" }
      ((validate_config ex2_store
        (copyistInit ex2_request)).1).request.config.model_configs
      { store := ex2_store, log := [] }).1
    rfl rfl rfl).1
  rw [h]
  rfl

/-- C2, counterexample to the claim as stated: an `IntegrityError` raised
while bulk-creating junction rows (oracle rejecting the `A_B` through
model) is rolled back and re-raised, but **no** log entry is written —
the claim's "re-raised after being logged with the failing entity type"
does not hold at this failure point. -/
theorem c2_counterexample :
    (execute_copy_request (fun m _ => m != "A_B") ex2_m2m_store
        (copyistInit ex2_m2m_request)).2 =
      (ex2_m2m_store, ([] : List String),
        .error (.integrityError "A_B")) := by
  rfl

/-! ### Reference-resolution completeness (C8) -/

theorem dictLookup_dictInsert {κ α : Type} [BEq κ] [LawfulBEq κ]
    (m : List (κ × α)) (k k' : κ) (v : α) :
    dictLookup (dictInsert m k v) k' =
      if k' == k then some v else dictLookup m k' := by
  induction m with
  | nil =>
    simp only [dictInsert, dictLookup]
  | cons p rest ih =>
    obtain ⟨k0, v0⟩ := p
    simp only [dictInsert, dictLookup, beq_iff_eq]
    by_cases hk : k = k0
    · subst hk
      by_cases hk' : k' = k
      · simp [dictLookup, hk']
      · simp [dictLookup, hk']
    · simp only [hk, if_false, dictLookup, beq_iff_eq]
      by_cases hk' : k' = k0
      · subst hk'
        have hne : ¬(k' = k) := fun hcon => hk hcon.symm
        simp [hne]
      · simp [hk', ih, beq_iff_eq]

theorem dictLookup_eq_none_iff {κ α : Type} [BEq κ] [LawfulBEq κ]
    (m : List (κ × α)) (k : κ) :
    dictLookup m k = none ↔ k ∉ m.map Prod.fst := by
  induction m with
  | nil => simp [dictLookup]
  | cons p rest ih =>
    obtain ⟨k0, v0⟩ := p
    simp only [dictLookup, beq_iff_eq, List.map_cons, List.mem_cons]
    by_cases hk : k = k0
    · simp [hk]
    · simp [hk, ih]

theorem dictInsert_keys {κ α : Type} [BEq κ] [LawfulBEq κ]
    (m : List (κ × α)) (k : κ) (v : α) (hnotin : k ∉ m.map Prod.fst) :
    (dictInsert m k v).map Prod.fst = m.map Prod.fst ++ [k] := by
  induction m with
  | nil => simp [dictInsert]
  | cons p rest ih =>
    obtain ⟨k0, v0⟩ := p
    simp only [List.map_cons, List.mem_cons] at hnotin
    push_neg at hnotin
    have hk : (k == k0) = false := by
      cases hkk : k == k0 with
      | false => rfl
      | true => exact absurd (eq_of_beq hkk) hnotin.1
    simp only [dictInsert, hk, Bool.false_eq_true, if_false, List.map_cons]
    rw [ih hnotin.2]
    simp

theorem all_map' {α β : Type} (l : List α) (f : α → β) (p : β → Bool) :
    (l.map f).all p = l.all (fun x => p (f x)) := by
  induction l <;> simp_all

theorem find?_ext {α : Type} (l : List α) (p q : α → Bool)
    (h : ∀ a, p a = q a) : l.find? p = l.find? q := by
  have hpq : p = q := funext h
  rw [hpq]

theorem match_step_value (field_copy_config : FieldCopyConfigBase)
    (substitute_instance_list : List Entity) (r : Entity) :
    (match substitute_instance_list.find? (fun i =>
        ((field_copy_config.filter_config.filters.filter
          (fun p => p.2.source == FilterSource.FROM_ORIGIN)).map
            (fun p => (p.1, getAttr r p.1))).all
          (fun c => getAttr i c.1 == c.2)) with
      | some s => some s.pk
      | none => none) =
      first_substitute_match field_copy_config substitute_instance_list r := by
  unfold first_substitute_match
  rw [find?_ext _ _ _ (fun s => by rw [all_map'])]
  cases substitute_instance_list.find? _ with
  | some s => rfl
  | none => rfl

theorem match_referenced_eq (field_copy_config : FieldCopyConfigBase)
    (referenced_instance_list substitute_instance_list : List Entity) :
    match_referenced_with_substitutes field_copy_config
        referenced_instance_list substitute_instance_list =
      referenced_instance_list.foldl (fun acc r => dictInsert acc r.pk
        (first_substitute_match field_copy_config substitute_instance_list r))
        [] := by
  unfold match_referenced_with_substitutes
  apply List.foldl_ext
  intro acc r _
  dsimp only
  have hv := match_step_value field_copy_config substitute_instance_list r
  cases h : substitute_instance_list.find? (fun i =>
      ((field_copy_config.filter_config.filters.filter
        (fun p => p.2.source == FilterSource.FROM_ORIGIN)).map
          (fun p => (p.1, getAttr r p.1))).all
        (fun c => getAttr i c.1 == c.2)) with
  | some s =>
    dsimp only at hv ⊢
    rw [← hv, h]
  | none =>
    dsimp only at hv ⊢
    rw [← hv, h]

theorem match_fold_lookup_preserve (field_copy_config : FieldCopyConfigBase)
    (substitute_instance_list : List Entity) (refs : List Entity)
    (acc : FieldSetToFilterMap) (k : Nat) (hk : k ∉ refs.map (·.pk)) :
    dictLookup (refs.foldl (fun acc r => dictInsert acc r.pk
      (first_substitute_match field_copy_config substitute_instance_list r))
      acc) k = dictLookup acc k := by
  induction refs generalizing acc with
  | nil => rfl
  | cons r rest ih =>
    simp only [List.map_cons, List.mem_cons] at hk
    push_neg at hk
    rw [List.foldl_cons, ih _ hk.2, dictLookup_dictInsert]
    simp [beq_iff_eq, hk.1]

theorem match_fold_lookup_mem (field_copy_config : FieldCopyConfigBase)
    (substitute_instance_list : List Entity) (refs : List Entity) :
    ∀ (acc : FieldSetToFilterMap), (refs.map (·.pk)).Nodup →
      (∀ j ∈ acc.map Prod.fst, j ∉ refs.map (·.pk)) →
      ∀ r ∈ refs,
        dictLookup (refs.foldl (fun acc r => dictInsert acc r.pk
          (first_substitute_match field_copy_config substitute_instance_list
            r)) acc) r.pk =
          some (first_substitute_match field_copy_config
            substitute_instance_list r) := by
  induction refs with
  | nil => intro acc _ _ r hr; exact absurd hr (List.not_mem_nil r)
  | cons r0 rest ih =>
    intro acc hnd hdisj r hr
    simp only [List.map_cons, List.nodup_cons] at hnd
    rw [List.foldl_cons]
    rcases List.mem_cons.mp hr with heq | hr'
    · subst heq
      rw [match_fold_lookup_preserve _ _ rest _ r.pk hnd.1,
        dictLookup_dictInsert]
      simp
    · have hno : r0.pk ∉ acc.map Prod.fst := by
        intro hcon
        exact hdisj r0.pk hcon (by simp)
      refine ih (dictInsert acc r0.pk _) hnd.2 ?_ r hr'
      intro j hj
      rw [dictInsert_keys acc r0.pk _ hno] at hj
      rcases List.mem_append.mp hj with hj' | hj'
      · intro hmem
        exact hdisj j hj' (List.mem_cons_of_mem _ hmem)
      · intro hmem
        simp only [List.mem_singleton] at hj'
        exact hnd.1 (hj' ▸ hmem)

theorem match_fold_keys (field_copy_config : FieldCopyConfigBase)
    (substitute_instance_list : List Entity) (refs : List Entity) :
    ∀ (acc : FieldSetToFilterMap), (refs.map (·.pk)).Nodup →
      (∀ j ∈ acc.map Prod.fst, j ∉ refs.map (·.pk)) →
      (refs.foldl (fun acc r => dictInsert acc r.pk
        (first_substitute_match field_copy_config substitute_instance_list
          r)) acc).map Prod.fst = acc.map Prod.fst ++ refs.map (·.pk) := by
  induction refs with
  | nil => intro acc _ _; simp
  | cons r0 rest ih =>
    intro acc hnd hdisj
    simp only [List.map_cons, List.nodup_cons] at hnd
    have hno : r0.pk ∉ acc.map Prod.fst := by
      intro hcon
      exact hdisj r0.pk hcon (by simp)
    rw [List.foldl_cons, ih (dictInsert acc r0.pk _) hnd.2 ?_,
      dictInsert_keys acc r0.pk _ hno]
    · simp
    · intro j hj
      rw [dictInsert_keys acc r0.pk _ hno] at hj
      rcases List.mem_append.mp hj with hj' | hj'
      · intro hmem
        exact hdisj j hj' (List.mem_cons_of_mem _ hmem)
      · intro hmem
        simp only [List.mem_singleton] at hj'
        exact hnd.1 (hj' ▸ hmem)

theorem stfGetField_stfSetField (set_to_filter_map : SetToFilterMap)
    (model field : String) (fm : FieldSetToFilterMap) :
    stfGetField (stfSetField set_to_filter_map model field fm) model field =
      some fm := by
  unfold stfGetField stfSetField
  rw [dictLookup_dictInsert]
  simp [dictLookup_dictInsert]

/-- C8: in declarative (filter) mode, every referenced origin entity in
the processed set (with the store's distinct primary keys) gets exactly
one reference-map entry keyed by its pk — the map's key list is exactly
the referenced pk list — whose value is the pk of the first fetched
destination candidate agreeing on every `FROM_ORIGIN` filter field, or
`none` when no candidate matches. -/
theorem c8_reference_resolution (store : Store) (input_data : InputData)
    (model_config : ModelCopyConfig) (field_name : String)
    (field_copy_config : FieldCopyConfigBase)
    (set_to_filter_map : SetToFilterMap) (instance_list : List Entity)
    (refs subs : List Entity)
    (hdecl : field_copy_config.filter_config.filters.isEmpty = false)
    (hrefs : get_referenced_instance_list store model_config field_name
      field_copy_config instance_list = .ok refs)
    (hsubs : get_substitute_instance_list store input_data field_copy_config
      refs = .ok subs)
    (hnd : (refs.map (·.pk)).Nodup) :
    ∃ fm, execute_set_to_filter_config_validation store input_data
        model_config field_name field_copy_config set_to_filter_map
        instance_list =
        .ok (stfSetField set_to_filter_map model_config.model field_name fm) ∧
      stfGetField (stfSetField set_to_filter_map model_config.model
        field_name fm) model_config.model field_name = some fm ∧
      fm.map Prod.fst = refs.map (·.pk) ∧
      (∀ r ∈ refs, dictLookup fm r.pk =
        some (first_substitute_match field_copy_config subs r)) := by
  refine ⟨match_referenced_with_substitutes field_copy_config refs subs,
    ?_, stfGetField_stfSetField .., ?_, ?_⟩
  · unfold execute_set_to_filter_config_validation
    rw [hrefs]
    unfold get_field_set_to_filter_map_for_filters
    simp only [hdecl, Bool.not_false, if_true, hsubs]
    rfl
  · rw [match_referenced_eq]
    simpa using match_fold_keys field_copy_config subs refs [] hnd
      (by intro j hj; simp at hj)
  · intro r hr
    rw [match_referenced_eq]
    exact match_fold_lookup_mem field_copy_config subs refs [] hnd
      (by intro j hj; simp at hj) r hr

/-- C8, witness: the resolution theorem applied to the concrete
set-to-filter store: entity Tgt 10 gets the entry `none`. -/
theorem c8_witness :
    ∃ fm, execute_set_to_filter_config_validation ex4_store ex4_input
        ex4_config "ref"
        { action := .SET_TO_FILTER, reference_to := "Tgt",
          filter_config := { filters :=
            [("scenario_id",
              { source := .FROM_INPUT, key := "target_scenario_id" }),
             ("name", { source := .FROM_ORIGIN })] },
          descr := some (.forwardFK "ref_id" true "Tgt") }
        [] [⟨1, [("scenario_id", [1]), ("name", [7]), ("ref_id", [10])]⟩] =
        .ok (stfSetField [] "Doc" "ref" fm) ∧
      stfGetField (stfSetField [] "Doc" "ref" fm) "Doc" "ref" = some fm ∧
      fm.map Prod.fst = [10] ∧
      (∀ r ∈ [(⟨10, [("scenario_id", [1]), ("name", [3])]⟩ : Entity)],
        dictLookup fm r.pk = some (first_substitute_match
          { action := .SET_TO_FILTER, reference_to := "Tgt",
            filter_config := { filters :=
              [("scenario_id",
                { source := .FROM_INPUT, key := "target_scenario_id" }),
               ("name", { source := .FROM_ORIGIN })] },
            descr := some (.forwardFK "ref_id" true "Tgt") } [] r)) := by
  have h := c8_reference_resolution ex4_store ex4_input ex4_config "ref"
    { action := .SET_TO_FILTER, reference_to := "Tgt",
      filter_config := { filters :=
        [("scenario_id", { source := .FROM_INPUT, key := "target_scenario_id" }),
         ("name", { source := .FROM_ORIGIN })] },
      descr := some (.forwardFK "ref_id" true "Tgt") }
    [] [⟨1, [("scenario_id", [1]), ("name", [7]), ("ref_id", [10])]⟩]
    [⟨10, [("scenario_id", [1]), ("name", [3])]⟩] [] rfl rfl rfl
    (by decide)
  obtain ⟨fm, h1, h2, h3, h4⟩ := h
  exact ⟨fm, h1, h2, by simpa using h3, h4⟩

/-! ### Unresolved SET_TO_FILTER drop rule (C5): the execution-pass field
evaluators never add intents -/

theorem originsFrom_refl (l : List CopyIntent) : originsFrom l l :=
  fun ci' h => ⟨ci', h, rfl⟩

theorem originsFrom_trans {a b c : List CopyIntent} (h1 : originsFrom a b)
    (h2 : originsFrom b c) : originsFrom a c := by
  intro ci' hm
  obtain ⟨ci, hb, he⟩ := h1 ci' hm
  obtain ⟨ci0, hc, he0⟩ := h2 ci hb
  exact ⟨ci0, hc, he.trans he0⟩

theorem originsFrom_cons_of {ci ci' : CopyIntent}
    (h : ci'.origin = ci.origin) {tl rest : List CopyIntent}
    (ht : originsFrom tl rest) : originsFrom (ci' :: tl) (ci :: rest) := by
  intro c hm
  rcases List.mem_cons.mp hm with heq | hm'
  · exact ⟨ci, List.mem_cons_self .., heq ▸ h⟩
  · obtain ⟨c0, hc, he⟩ := ht c hm'
    exact ⟨c0, List.mem_cons_of_mem _ hc, he⟩

theorem originsFrom_skip {ci : CopyIntent} {tl rest : List CopyIntent}
    (ht : originsFrom tl rest) : originsFrom tl (ci :: rest) := by
  intro c hm
  obtain ⟨c0, hc, he⟩ := ht c hm
  exact ⟨c0, List.mem_cons_of_mem _ hc, he⟩

theorem save_m2m_fields_values_origins (set_to_filter_map : SetToFilterMap)
    (field_name : String) (m2m_map : List (Nat × List Nat))
    (referenced_model through_model fkey bkey from_model : String)
    (uc uo us : Bool) (intents res : List CopyIntent)
    (h : save_m2m_fields_values set_to_filter_map field_name m2m_map
      referenced_model through_model fkey bkey from_model uc uo us intents =
      .ok res) : originsFrom res intents := by
  induction intents generalizing res with
  | nil =>
    simp only [save_m2m_fields_values] at h
    cases h
    intro c hm
    exact absurd hm (List.not_mem_nil c)
  | cons ci rest ih =>
    unfold save_m2m_fields_values at h
    dsimp only at h
    cases h0 : dictLookup m2m_map ci.origin.pk with
    | none =>
      rw [h0] at h
      cases hr : save_m2m_fields_values set_to_filter_map field_name m2m_map
          referenced_model through_model fkey bkey from_model uc uo us
          rest with
      | error e => rw [hr] at h; simp [Except.map] at h
      | ok tl =>
        rw [hr] at h
        simp only [Except.map, Except.ok.injEq] at h
        subst h
        exact originsFrom_cons_of rfl (ih tl hr)
    | some ids =>
      rw [h0] at h
      by_cases hemp : ids.isEmpty
      · simp only [hemp, if_true] at h
        cases hr : save_m2m_fields_values set_to_filter_map field_name
            m2m_map referenced_model through_model fkey bkey from_model uc uo
            us rest with
        | error e => rw [hr] at h; simp [Except.map] at h
        | ok tl =>
          rw [hr] at h
          simp only [Except.map, Except.ok.injEq] at h
          subst h
          exact originsFrom_cons_of rfl (ih tl hr)
      · simp only [hemp, Bool.false_eq_true, if_false] at h
        cases hrel : (if uo = true then
            match dictLookup set_to_filter_map from_model with
            | none => Except.error PyErr.keyError
            | some group =>
              match dictLookup group field_name with
              | none => Except.error PyErr.keyError
              | some field_map =>
                let updated_id_list := ids.map (fun related_id =>
                  match dictLookup field_map related_id with
                  | some (some v) => some v
                  | _ => none)
                if updated_id_list.contains none then Except.ok none
                else Except.ok (some (updated_id_list.filterMap id))
          else Except.ok (some ids) : Except PyErr (Option (List Nat))) with
        | error e => rw [hrel] at h; simp at h
        | ok rel =>
          rw [hrel] at h
          cases rel with
          | none =>
            cases hr : save_m2m_fields_values set_to_filter_map field_name
                m2m_map referenced_model through_model fkey bkey from_model
                uc uo us rest with
            | error e => rw [hr] at h; simp at h
            | ok tl =>
              rw [hr] at h
              simp only [Except.ok.injEq] at h
              subst h
              exact originsFrom_skip (ih tl hr)
          | some related =>
            cases hr : save_m2m_fields_values set_to_filter_map field_name
                m2m_map referenced_model through_model fkey bkey from_model
                uc uo us rest with
            | error e => rw [hr] at h; simp [Except.map] at h
            | ok tl =>
              rw [hr] at h
              simp only [Except.map, Except.ok.injEq] at h
              subst h
              refine originsFrom_cons_of ?_ (ih tl hr)
              rfl

theorem take_from_origin_scalar_loop_origins (model_class field_name : String)
    (intents res : List CopyIntent)
    (h : take_from_origin_scalar_loop model_class field_name intents =
      .ok res) : originsFrom res intents := by
  induction intents generalizing res with
  | nil =>
    cases h
    exact fun c hm => absurd hm (List.not_mem_nil c)
  | cons ci rest ih =>
    unfold take_from_origin_scalar_loop at h
    cases h0 : dictLookup ci.origin.fields field_name with
    | none => rw [h0] at h; simp at h
    | some v =>
      rw [h0] at h
      cases hr : take_from_origin_scalar_loop model_class field_name rest with
      | error e => rw [hr] at h; simp [Except.map] at h
      | ok tl =>
        rw [hr] at h
        simp only [Except.map, Except.ok.injEq] at h
        subst h
        refine originsFrom_cons_of ?_ (ih tl hr)
        rfl

theorem evaluate_take_from_input_field_values_origins
    (input_data : InputData) (field_name input_key : String)
    (intents res : List CopyIntent)
    (h : evaluate_take_from_input_field_values input_data field_name
      input_key intents = .ok res) : originsFrom res intents := by
  induction intents generalizing res with
  | nil =>
    cases h
    exact fun c hm => absurd hm (List.not_mem_nil c)
  | cons ci rest ih =>
    unfold evaluate_take_from_input_field_values at h
    cases h0 : dictLookup input_data input_key with
    | none => rw [h0] at h; simp at h
    | some v =>
      rw [h0] at h
      cases hr : evaluate_take_from_input_field_values input_data field_name
          input_key rest with
      | error e => rw [hr] at h; simp [Except.map] at h
      | ok tl =>
        rw [hr] at h
        simp only [Except.map, Except.ok.injEq] at h
        subst h
        refine originsFrom_cons_of ?_ (ih tl hr)
        rfl

theorem evaluate_reverse_fk_field_values_origins (id_field_name : String)
    (model_output_map : List (Nat × Nat)) (referenced_model : String)
    (intents res : List CopyIntent)
    (h : evaluate_reverse_fk_field_values id_field_name model_output_map
      referenced_model intents = .ok res) : originsFrom res intents := by
  induction intents generalizing res with
  | nil =>
    cases h
    exact fun c hm => absurd hm (List.not_mem_nil c)
  | cons ci rest ih =>
    unfold evaluate_reverse_fk_field_values at h
    dsimp only at h
    cases h0 : getScalar ci.origin id_field_name with
    | none =>
      simp only [h0] at h
      cases hr : evaluate_reverse_fk_field_values id_field_name
          model_output_map referenced_model rest with
      | error e => rw [hr] at h; simp [Except.map] at h
      | ok tl =>
        rw [hr] at h
        simp only [Except.map, Except.ok.injEq] at h
        subst h
        refine originsFrom_cons_of ?_ (ih tl hr)
        rfl
    | some rid =>
      simp only [h0] at h
      cases h1 : dictLookup model_output_map rid with
      | none => simp only [h1] at h; simp at h
      | some cid =>
        simp only [h1] at h
        cases hr : evaluate_reverse_fk_field_values id_field_name
            model_output_map referenced_model rest with
        | error e => rw [hr] at h; simp [Except.map] at h
        | ok tl =>
          rw [hr] at h
          simp only [Except.map, Except.ok.injEq] at h
          subst h
          refine originsFrom_cons_of ?_ (ih tl hr)
          rfl

theorem set_to_filter_to_one_loop_origins (id_field_name : String)
    (model_map : Option FieldSetToFilterMap)
    (referenced_model field_name : String) (intents res : List CopyIntent)
    (h : set_to_filter_to_one_loop id_field_name model_map referenced_model
      field_name intents = .ok res) : originsFrom res intents := by
  induction intents generalizing res with
  | nil =>
    cases h
    exact fun c hm => absurd hm (List.not_mem_nil c)
  | cons ci rest ih =>
    unfold set_to_filter_to_one_loop at h
    dsimp only at h
    cases h0 : getScalar ci.origin id_field_name with
    | none =>
      simp only [h0] at h
      cases hr : set_to_filter_to_one_loop id_field_name model_map
          referenced_model field_name rest with
      | error e => rw [hr] at h; simp [Except.map] at h
      | ok tl =>
        rw [hr] at h
        simp only [Except.map, Except.ok.injEq] at h
        subst h
        refine originsFrom_cons_of ?_ (ih tl hr)
        rfl
    | some rid =>
      simp only [h0] at h
      cases hm0 : model_map with
      | none => simp only [hm0] at h; simp at h
      | some fm =>
        subst hm0
        by_cases hemp : fm.isEmpty
        · simp [hemp] at h
        · simp only [hemp, Bool.false_eq_true, if_false] at h
          cases h1 : dictLookup fm rid with
          | none => simp only [h1] at h; simp at h
          | some sub =>
            simp only [h1] at h
            cases sub with
            | none =>
              cases hr : set_to_filter_to_one_loop id_field_name (some fm)
                  referenced_model field_name rest with
              | error e => rw [hr] at h; simp at h
              | ok tl =>
                rw [hr] at h
                simp only [Except.ok.injEq] at h
                subst h
                exact originsFrom_skip (ih tl hr)
            | some sid =>
              cases hr : set_to_filter_to_one_loop id_field_name (some fm)
                  referenced_model field_name rest with
              | error e => rw [hr] at h; simp [Except.map] at h
              | ok tl =>
                rw [hr] at h
                simp only [Except.map, Except.ok.injEq] at h
                subst h
                refine originsFrom_cons_of ?_ (ih tl hr)
                rfl

theorem foldExcept_origins
    (f : List CopyIntent → Except PyErr (List CopyIntent))
    (hf : ∀ a b, f a = .ok b → originsFrom b a) (n : Nat)
    (intents res : List CopyIntent)
    (h : foldExcept f n intents = .ok res) : originsFrom res intents := by
  induction n generalizing intents with
  | zero =>
    simp only [foldExcept, Except.ok.injEq] at h
    subst h
    exact originsFrom_refl _
  | succ n ih =>
    unfold foldExcept at h
    cases hstep : f intents with
    | error e => rw [hstep] at h; simp at h
    | ok j =>
      rw [hstep] at h
      exact originsFrom_trans (ih j h) (hf intents j hstep)

theorem evaluate_m2m_field_values_origins (store : Store)
    (set_to_filter_map : SetToFilterMap) (field_name : String)
    (d : M2MDescriptor) (from_model : String) (ids : List Nat)
    (intents : List CopyIntent) (referenced_model : String) (uc us uo : Bool)
    (res : List CopyIntent)
    (h : evaluate_m2m_field_values store set_to_filter_map field_name d
      from_model ids intents referenced_model uc us uo = .ok res) :
    originsFrom res intents := by
  unfold evaluate_m2m_field_values at h
  by_cases hflag : (uc && us) = true
  · simp [hflag] at h
  · rw [Bool.not_eq_true] at hflag
    simp only [hflag, Bool.false_eq_true, if_false] at h
    exact save_m2m_fields_values_origins _ _ _ _ _ _ _ _ _ _ _ _ _ h

theorem evaluate_take_from_origin_field_values_origins (store : Store)
    (set_to_filter_map : SetToFilterMap) (model_class field_name : String)
    (descr : Option FieldDescriptor) (intents res : List CopyIntent)
    (h : evaluate_take_from_origin_field_values store set_to_filter_map
      model_class field_name descr intents = .ok res) :
    originsFrom res intents := by
  unfold evaluate_take_from_origin_field_values at h
  split at h
  · exact foldExcept_origins _
      (fun a b hb => evaluate_m2m_field_values_origins _ _ _ _ _ _ _ _ _ _ _ _ hb)
      _ _ _ h
  · exact take_from_origin_scalar_loop_origins _ _ _ _ h

theorem evaluate_update_to_copied_field_values_origins (store : Store)
    (set_to_filter_map : SetToFilterMap) (model_class : String)
    (field_copy_config : FieldCopyConfigBase)
    (model_output_map : List (Nat × Nat)) (field_name : String)
    (instance_list : List Entity) (intents res : List CopyIntent)
    (h : evaluate_update_to_copied_field_values store set_to_filter_map
      model_class field_copy_config model_output_map field_name
      instance_list intents = .ok res) : originsFrom res intents := by
  unfold evaluate_update_to_copied_field_values at h
  split at h
  · simp at h
  · split at h
    · simp at h
    · exact evaluate_m2m_field_values_origins _ _ _ _ _ _ _ _ _ _ _ _ h
  · split at h
    · simp at h
    · exact evaluate_reverse_fk_field_values_origins _ _ _ _ _ h
  · simp at h

theorem evaluate_set_to_filter_field_values_origins (store : Store)
    (set_to_filter_map : SetToFilterMap) (model_class : String)
    (field_copy_config : FieldCopyConfigBase) (field_name : String)
    (intents res : List CopyIntent)
    (h : evaluate_set_to_filter_field_values store set_to_filter_map
      model_class field_copy_config field_name intents = .ok res) :
    originsFrom res intents := by
  unfold evaluate_set_to_filter_field_values at h
  split at h
  · simp at h
  · split at h
    · simp at h
    · exact foldExcept_origins _
        (fun a b hb =>
          evaluate_m2m_field_values_origins _ _ _ _ _ _ _ _ _ _ _ _ hb)
        _ _ _ h
  · split at h
    · simp at h
    · exact set_to_filter_to_one_loop_origins _ _ _ _ _ _ h
  · split at h
    · simp at h
    · exact set_to_filter_to_one_loop_origins _ _ _ _ _ _ h
  · simp at h

theorem evaluate_field_values_origins (store : Store)
    (input_data : InputData) (set_to_filter_map : SetToFilterMap)
    (output_map : OutputMap) (field_name : String)
    (field_copy_config : FieldCopyConfigBase) (model_class : String)
    (intents : List CopyIntent) (instance_list : List Entity)
    (res : List CopyIntent)
    (h : evaluate_field_values store input_data set_to_filter_map output_map
      field_name field_copy_config model_class intents instance_list =
      .ok res) : originsFrom res intents := by
  unfold evaluate_field_values at h
  cases ha : field_copy_config.action with
  | MAKE_COPY =>
    rw [ha] at h
    simp only [Except.ok.injEq] at h
    subst h
    exact originsFrom_refl _
  | TAKE_FROM_ORIGIN =>
    rw [ha] at h
    exact evaluate_take_from_origin_field_values_origins _ _ _ _ _ _ _ h
  | TAKE_FROM_INPUT =>
    rw [ha] at h
    exact evaluate_take_from_input_field_values_origins _ _ _ _ _ h
  | UPDATE_TO_COPIED =>
    rw [ha] at h
    exact evaluate_update_to_copied_field_values_origins _ _ _ _ _ _ _ _ _ h
  | SET_TO_FILTER =>
    rw [ha] at h
    exact evaluate_set_to_filter_field_values_origins _ _ _ _ _ _ _ h

theorem evaluate_fields_loop_origins (env : ExecEnv) (store : Store)
    (output_map : OutputMap) (model_class : String)
    (instance_list : List Entity)
    (fields : List (String × FieldCopyConfigBase × Option ModelCopyConfig))
    (intents res : List CopyIntent)
    (h : evaluate_fields_loop env store output_map model_class instance_list
      fields intents = .ok res) : originsFrom res intents := by
  induction fields generalizing intents with
  | nil =>
    simp only [evaluate_fields_loop, Except.ok.injEq] at h
    subst h
    exact originsFrom_refl _
  | cons p rest ih =>
    obtain ⟨field_name, field_copy_config, sub⟩ := p
    unfold evaluate_fields_loop at h
    cases hstep : evaluate_field_values store env.input_data
        env.set_to_filter_map output_map field_name field_copy_config
        model_class intents instance_list with
    | error e => rw [hstep] at h; simp at h
    | ok mid =>
      rw [hstep] at h
      exact originsFrom_trans (ih mid h)
        (evaluate_field_values_origins _ _ _ _ _ _ _ _ _ _ hstep)

theorem set_to_filter_to_one_loop_drop (id_field_name : String)
    (fm : FieldSetToFilterMap) (referenced_model field_name : String)
    (intents res : List CopyIntent)
    (h : set_to_filter_to_one_loop id_field_name (some fm) referenced_model
      field_name intents = .ok res) :
    ∀ ci' ∈ res, ∀ rid, getScalar ci'.origin id_field_name = some rid →
      dictLookup fm rid ≠ some none := by
  induction intents generalizing res with
  | nil =>
    cases h
    intro c hm
    exact absurd hm (List.not_mem_nil c)
  | cons ci rest ih =>
    unfold set_to_filter_to_one_loop at h
    dsimp only at h
    cases h0 : getScalar ci.origin id_field_name with
    | none =>
      simp only [h0] at h
      cases hr : set_to_filter_to_one_loop id_field_name (some fm)
          referenced_model field_name rest with
      | error e => rw [hr] at h; simp [Except.map] at h
      | ok tl =>
        rw [hr] at h
        simp only [Except.map, Except.ok.injEq] at h
        subst h
        intro ci' hm rid hrid
        rcases List.mem_cons.mp hm with heq | hm'
        · subst heq
          simp only at hrid
          rw [h0] at hrid
          cases hrid
        · exact ih tl hr ci' hm' rid hrid
    | some rid0 =>
      simp only [h0] at h
      by_cases hemp : fm.isEmpty
      · simp [hemp] at h
      · simp only [hemp, Bool.false_eq_true, if_false] at h
        cases h1 : dictLookup fm rid0 with
        | none => simp only [h1] at h; simp at h
        | some subv =>
          simp only [h1] at h
          cases subv with
          | none =>
            cases hr : set_to_filter_to_one_loop id_field_name (some fm)
                referenced_model field_name rest with
            | error e => rw [hr] at h; simp at h
            | ok tl =>
              rw [hr] at h
              simp only [Except.ok.injEq] at h
              subst h
              exact ih tl hr
          | some sid =>
            cases hr : set_to_filter_to_one_loop id_field_name (some fm)
                referenced_model field_name rest with
            | error e => rw [hr] at h; simp [Except.map] at h
            | ok tl =>
              rw [hr] at h
              simp only [Except.map, Except.ok.injEq] at h
              subst h
              intro ci' hm rid hrid
              rcases List.mem_cons.mp hm with heq | hm'
              · subst heq
                simp only at hrid
                rw [h0] at hrid
                cases hrid
                rw [h1]
                simp
              · exact ih tl hr ci' hm' rid hrid

theorem evaluate_fields_loop_append (env : ExecEnv) (store : Store)
    (output_map : OutputMap) (model_class : String)
    (instance_list : List Entity)
    (l1 l2 : List (String × FieldCopyConfigBase × Option ModelCopyConfig))
    (intents : List CopyIntent) :
    evaluate_fields_loop env store output_map model_class instance_list
        (l1 ++ l2) intents =
      match evaluate_fields_loop env store output_map model_class
          instance_list l1 intents with
      | .ok j =>
        evaluate_fields_loop env store output_map model_class instance_list
          l2 j
      | .error e => .error e := by
  induction l1 generalizing intents with
  | nil => rfl
  | cons p l1 ih =>
    obtain ⟨field_name, field_copy_config, sub⟩ := p
    rw [List.cons_append]
    cases hstep : evaluate_field_values store env.input_data
        env.set_to_filter_map output_map field_name field_copy_config
        model_class intents instance_list with
    | error e =>
      rw [evaluate_fields_loop.eq_def]
      conv_rhs => rw [evaluate_fields_loop.eq_def]
      simp only [hstep]
    | ok mid =>
      rw [evaluate_fields_loop.eq_def]
      conv_rhs => rw [evaluate_fields_loop.eq_def]
      simp only [hstep]
      exact ih mid

/-- C5: during execution, a scope entity of a node whose to-one
`SET_TO_FILTER` field holds a non-null origin-referenced id mapped to
`none` in the reference map is removed from the node's copy intents by
the field-evaluation loop, so the node's bulk-create — which creates
exactly the intents surviving that loop — creates no copy of it. -/
theorem c5_unresolved_drop (env : ExecEnv) (store : Store)
    (output_map : OutputMap) (model_class : String)
    (instance_list : List Entity)
    (l1 l2 : List (String × FieldCopyConfigBase × Option ModelCopyConfig))
    (field_name : String) (field_copy_config : FieldCopyConfigBase)
    (sub : Option ModelCopyConfig) (attname : String) (nb : Bool)
    (rm : String)
    (hact : field_copy_config.action = .SET_TO_FILTER)
    (hdescr : field_copy_config.descr = some (.forwardFK attname nb rm))
    (group : ModelFieldMaps) (fm : FieldSetToFilterMap)
    (hgroup : dictLookup env.set_to_filter_map model_class = some group)
    (hfm : dictLookup group field_name = some fm)
    (intents res : List CopyIntent)
    (hloop : evaluate_fields_loop env store output_map model_class
      instance_list (l1 ++ (field_name, field_copy_config, sub) :: l2)
      intents = .ok res)
    (e : Entity) (rid : Nat)
    (hrid : getScalar e attname = some rid)
    (hnone : dictLookup fm rid = some none) :
    (∀ ci' ∈ res, ci'.origin ≠ e) ∧
    (∀ (oracle : InsertOracle) (parent : Option (String × String))
        (es es' : EState) (created : List Entity),
      execute_copy_intent_list oracle output_map model_class res parent es =
        (es', .ok created) →
      ∀ p ∈ res.zip created, p.1.origin ≠ e) := by
  have hmain : ∀ ci' ∈ res, ci'.origin ≠ e := by
    rw [evaluate_fields_loop_append] at hloop
    cases h1 : evaluate_fields_loop env store output_map model_class
        instance_list l1 intents with
    | error e1 => rw [h1] at hloop; simp at hloop
    | ok j =>
      rw [h1] at hloop
      unfold evaluate_fields_loop at hloop
      cases hstep : evaluate_field_values store env.input_data
          env.set_to_filter_map output_map field_name field_copy_config
          model_class j instance_list with
      | error e1 => rw [hstep] at hloop; simp at hloop
      | ok mid =>
        rw [hstep] at hloop
        have hdrop : ∀ cm ∈ mid, ∀ rid', getScalar cm.origin attname =
            some rid' → dictLookup fm rid' ≠ some none := by
          unfold evaluate_field_values at hstep
          rw [hact] at hstep
          unfold evaluate_set_to_filter_field_values at hstep
          rw [hdescr] at hstep
          dsimp only at hstep
          rw [hgroup] at hstep
          dsimp only at hstep
          rw [hfm] at hstep
          exact set_to_filter_to_one_loop_drop _ _ _ _ _ _ hstep
        have hsub := evaluate_fields_loop_origins env store output_map
          model_class instance_list l2 mid res hloop
        intro ci' hm hcon
        obtain ⟨cm, hcm, heq⟩ := hsub ci' hm
        exact hdrop cm hcm rid (by rw [← heq, hcon, hrid]) hnone
  refine ⟨hmain, ?_⟩
  intro oracle parent es es' created hexec p hp
  obtain ⟨a, b⟩ := p
  exact hmain a (List.of_mem_zip hp).1

/-- C5, witness: two intents whose origins reference ids 10 (unresolved)
and 11 (resolved to 20); the evaluation loop keeps only the second, and
it does not originate from the dropped entity. -/
theorem c5_witness :
    (⟨⟨2, [("ref_id", [11])]⟩, [("ref_id", [20])], [], none⟩ : CopyIntent).origin
      ≠ (⟨1, [("ref_id", [10])]⟩ : Entity) :=
  (c5_unresolved_drop
    { input_data := [], set_to_filter_map := [("Doc", [("ref",
        [(10, none), (11, some 20)])])], ignored_map := [],
      oracle := acceptAll }
    ex4_store [] "Doc" [] [] []
    "ref" { action := .SET_TO_FILTER, reference_to := "Tgt",
            descr := some (.forwardFK "ref_id" true "Tgt") } none
    "ref_id" true "Tgt" rfl rfl
    [("ref", [(10, none), (11, some 20)])] [(10, none), (11, some 20)]
    rfl rfl
    [⟨⟨1, [("ref_id", [10])]⟩, [], [], none⟩,
     ⟨⟨2, [("ref_id", [11])]⟩, [], [], none⟩]
    [⟨⟨2, [("ref_id", [11])]⟩, [("ref_id", [20])], [], none⟩]
    rfl (⟨1, [("ref_id", [10])]⟩ : Entity) 10 rfl rfl).1
    (⟨⟨2, [("ref_id", [11])]⟩, [("ref_id", [20])], [], none⟩ : CopyIntent)
    (by simp)

theorem save_m2m_flags_false (stf : SetToFilterMap) (fn : String)
    (m2m_map : List (Nat × List Nat)) (d : M2MDescriptor) (fm : String)
    (l : List CopyIntent) :
    save_m2m_fields_values stf fn m2m_map d.related_model d.through_model
      d.forward_id_key d.backward_id_key fm false false false l
      = .ok (l.map (m2m_append_step m2m_map fn d fm)) := by
  induction l with
  | nil => rfl
  | cons ci tl ih =>
    simp only [save_m2m_fields_values, ih, List.map_cons, m2m_append_step]
    cases hl : dictLookup m2m_map ci.origin.pk with
    | none => simp [Except.map]
    | some ids =>
      by_cases hne : ids.isEmpty
      · simp [hne, Except.map]
      · simp [hne, Except.map, m2m_instruction]

theorem m2m_append_step_origin (m2m_map : List (Nat × List Nat))
    (fn : String) (d : M2MDescriptor) (fm : String) (ci : CopyIntent) :
    (m2m_append_step m2m_map fn d fm ci).origin = ci.origin := by
  unfold m2m_append_step
  cases dictLookup m2m_map ci.origin.pk with
  | none => rfl
  | some ids =>
    by_cases hne : ids.isEmpty
    · simp [hne]
    · simp [hne]

theorem m2m_append_step_pks (m2m_map : List (Nat × List Nat))
    (fn : String) (d : M2MDescriptor) (fm : String) (l : List CopyIntent) :
    (l.map (m2m_append_step m2m_map fn d fm)).map (fun x => x.origin.pk)
      = l.map (fun x => x.origin.pk) := by
  induction l with
  | nil => rfl
  | cons ci tl ih =>
    simp only [List.map_cons, ih, m2m_append_step_origin]

theorem list_map_iterate {α : Type} (g : α → α) (n : Nat) (l : List α) :
    (List.map g)^[n] l = l.map (g^[n]) := by
  induction n generalizing l with
  | zero => simp
  | succ n ih =>
    rw [Function.iterate_succ_apply, ih, List.map_map,
      ← Function.iterate_succ]

theorem m2m_append_step_iterate (m2m_map : List (Nat × List Nat))
    (fn : String) (d : M2MDescriptor) (fm : String) (n : Nat)
    (ci : CopyIntent) :
    (m2m_append_step m2m_map fn d fm)^[n] ci
      = match dictLookup m2m_map ci.origin.pk with
        | none => ci
        | some ids =>
          if ids.isEmpty then ci
          else { ci with m2m_copy_intent_list :=
              ci.m2m_copy_intent_list ++
                List.replicate n (m2m_instruction fn d fm ids) } := by
  induction n with
  | zero =>
    cases hl : dictLookup m2m_map ci.origin.pk with
    | none => rfl
    | some ids =>
      by_cases hne : ids.isEmpty
      · simp [hne]
      · simp [hne]
  | succ n ih =>
    rw [Function.iterate_succ_apply', ih]
    cases hl : dictLookup m2m_map ci.origin.pk with
    | none => simp [m2m_append_step, hl]
    | some ids =>
      by_cases hne : ids.isEmpty
      · simp [hne, m2m_append_step, hl]
      · simp only [hne, if_false, Bool.false_eq_true]
        unfold m2m_append_step
        simp only [hl, hne, Bool.false_eq_true, if_false]
        simp [List.replicate_succ', List.append_assoc]

theorem take_from_origin_m2m_fold (store : Store)
    (stf : SetToFilterMap) (mc fn : String) (d : M2MDescriptor)
    (pks : List Nat) (n : Nat) :
    ∀ l : List CopyIntent, l.map (fun x => x.origin.pk) = pks →
      foldExcept (fun cur =>
          evaluate_m2m_field_values store stf fn d mc
            (cur.map (fun x => x.origin.pk)) cur d.related_model
            false false false) n l
        = .ok ((List.map (m2m_append_step
            (get_m2m_relation_map store d pks) fn d mc))^[n] l) := by
  induction n with
  | zero => intro l hl; rfl
  | succ n ih =>
    intro l hl
    rw [foldExcept]
    rw [show evaluate_m2m_field_values store stf fn d mc
        (l.map (fun x => x.origin.pk)) l d.related_model false false false
        = .ok (l.map (m2m_append_step
            (get_m2m_relation_map store d pks) fn d mc)) from by
      unfold evaluate_m2m_field_values
      rw [hl]
      simpa using save_m2m_flags_false stf fn
        (get_m2m_relation_map store d pks) d mc l]
    dsimp only
    rw [ih (l.map (m2m_append_step (get_m2m_relation_map store d pks) fn d mc))
      (by rw [m2m_append_step_pks, hl])]
    rw [← Function.iterate_succ_apply]

theorem take_from_origin_m2m_eq (store : Store) (stf : SetToFilterMap)
    (mc fn : String) (d : M2MDescriptor) (intents : List CopyIntent) :
    evaluate_take_from_origin_field_values store stf mc fn
      (some (.manyToMany d)) intents
      = .ok (intents.map (fun ci =>
          match dictLookup (get_m2m_relation_map store d
              (intents.map (fun x => x.origin.pk))) ci.origin.pk with
          | none => ci
          | some ids =>
            if ids.isEmpty then ci
            else { ci with m2m_copy_intent_list :=
                ci.m2m_copy_intent_list ++
                  List.replicate intents.length (m2m_instruction fn d mc ids) })) := by
  unfold evaluate_take_from_origin_field_values
  dsimp only
  rw [take_from_origin_m2m_fold store stf mc fn d
    (intents.map (fun x => x.origin.pk)) intents.length intents rfl]
  rw [list_map_iterate]
  exact congrArg Except.ok (List.map_congr_left (fun ci _ =>
    m2m_append_step_iterate (get_m2m_relation_map store d
      (intents.map (fun x => x.origin.pk))) fn d mc intents.length ci))

theorem m2m_rows_for_intent_single (stf : SetToFilterMap)
    (om : OutputMap) (mc : String) (ci : CopyIntent)
    (instr : M2MCopyIntent) (c : Entity)
    (hfl1 : instr.use_copied_related_instances = false)
    (hfl2 : instr.use_set_to_filter_values = false)
    (hcop : ci.copied = some c) :
    m2m_rows_for_intent stf om mc
      { ci with m2m_copy_intent_list := [instr] }
      = .ok (instr.related_id_list.map (fun rid =>
          (instr.through_model,
            [(instr.backward_id_key, [c.pk]),
             (instr.forward_id_key, [rid])]))) := by
  unfold m2m_rows_for_intent
  simp only [m2m_rows_go, hfl1, hfl2, Bool.false_eq_true, if_false]
  simp [hcop, Except.map]

theorem m2m_groups_per_intent_replicate (stf : SetToFilterMap)
    (om : OutputMap) (mc : String) (ci : CopyIntent)
    (instr : M2MCopyIntent) (c : Entity)
    (hfl1 : instr.use_copied_related_instances = false)
    (hfl2 : instr.use_set_to_filter_values = false)
    (hcop : ci.copied = some c) (n : Nat) :
    ∀ rows0 : List (List (String × List Nat)),
      m2m_groups_per_intent stf om mc ci
        [(instr.through_model, rows0)] (List.replicate n instr)
        = .ok [(instr.through_model,
            rows0 ++ (List.replicate n
              (instr.related_id_list.map (fun rid =>
                [(instr.backward_id_key, [c.pk]),
                 (instr.forward_id_key, [rid])]))).flatten)] := by
  induction n with
  | zero => intro rows0; simp [m2m_groups_per_intent]
  | succ n ih =>
    intro rows0
    rw [List.replicate_succ]
    simp only [m2m_groups_per_intent]
    rw [m2m_rows_for_intent_single stf om mc ci instr c hfl1 hfl2 hcop]
    simp only [group_through_rows, dictLookup, beq_self_eq_true, if_true,
      dictInsert, List.map_map, Function.comp_def, List.append_nil]
    rw [ih (rows0 ++ instr.related_id_list.map (fun rid =>
      [(instr.backward_id_key, [c.pk]), (instr.forward_id_key, [rid])]))]
    simp [List.append_assoc, List.replicate_succ]

theorem create_m2m_replicate (oracle : InsertOracle)
    (stf : SetToFilterMap) (om : OutputMap) (mc : String)
    (ci : CopyIntent) (instr : M2MCopyIntent) (c : Entity) (n : Nat)
    (store : Store)
    (hfl1 : instr.use_copied_related_instances = false)
    (hfl2 : instr.use_set_to_filter_values = false)
    (hcop : ci.copied = some c)
    (hlist : ci.m2m_copy_intent_list = List.replicate (n + 1) instr) :
    create_m2m_relations_for_update_to_copied oracle stf om mc [ci] store
      = (store.bulkCreate oracle instr.through_model
          ((List.replicate (n + 1)
            (instr.related_id_list.map (fun rid =>
              [(instr.backward_id_key, [c.pk]),
               (instr.forward_id_key, [rid])]))).flatten)).map
          (fun p => p.1) := by
  unfold create_m2m_relations_for_update_to_copied
  rw [show m2m_groups_collect stf om mc [] [ci]
      = .ok [(instr.through_model,
          (List.replicate (n + 1)
            (instr.related_id_list.map (fun rid =>
              [(instr.backward_id_key, [c.pk]),
               (instr.forward_id_key, [rid])]))).flatten)] from by
    simp only [m2m_groups_collect, hlist, List.replicate_succ,
      m2m_groups_per_intent]
    rw [m2m_rows_for_intent_single stf om mc ci instr c hfl1 hfl2 hcop]
    simp only [group_through_rows, dictLookup, dictInsert, List.map_map,
      Function.comp_def, beq_self_eq_true, if_true, List.nil_append,
      List.append_nil]
    rw [m2m_groups_per_intent_replicate stf om mc ci instr c hfl1 hfl2
      hcop n]
    simp [m2m_groups_collect, List.replicate_succ]]
  cases hbc : store.bulkCreate oracle instr.through_model
      ((List.replicate (n + 1)
        (instr.related_id_list.map (fun rid =>
          [(instr.backward_id_key, [c.pk]),
           (instr.forward_id_key, [rid])]))).flatten) with
  | error e => simp [m2m_create_all, hbc, Except.map]
  | ok p => simp [m2m_create_all, hbc, Except.map]

/-- C9: a many-to-many field under `TAKE_FROM_ORIGIN` is evaluated once
per scope entity over the entire intent list, so each intent with linked
ids accumulates one identical pending m2m instruction per scope entity
(`intents.length` copies in total), and a copy intent carrying `n + 1`
identical pending instructions gets its original links bulk-created
`n + 1` times over as junction rows, not once. -/
theorem c9_m2m_instruction_multiplication (store : Store)
    (stf : SetToFilterMap) (mc fn : String) (d : M2MDescriptor)
    (intents : List CopyIntent) (oracle : InsertOracle) (om : OutputMap)
    (ci : CopyIntent) (instr : M2MCopyIntent) (c : Entity) (n : Nat)
    (store2 : Store)
    (hfl1 : instr.use_copied_related_instances = false)
    (hfl2 : instr.use_set_to_filter_values = false)
    (hcop : ci.copied = some c)
    (hlist : ci.m2m_copy_intent_list = List.replicate (n + 1) instr) :
    evaluate_take_from_origin_field_values store stf mc fn
      (some (.manyToMany d)) intents
      = .ok (intents.map (fun ci0 =>
          match dictLookup (get_m2m_relation_map store d
              (intents.map (fun x => x.origin.pk))) ci0.origin.pk with
          | none => ci0
          | some ids =>
            if ids.isEmpty then ci0
            else { ci0 with m2m_copy_intent_list :=
                ci0.m2m_copy_intent_list ++
                  List.replicate intents.length (m2m_instruction fn d mc ids) })) ∧
    create_m2m_relations_for_update_to_copied oracle stf om mc [ci] store2
      = (store2.bulkCreate oracle instr.through_model
          ((List.replicate (n + 1)
            (instr.related_id_list.map (fun rid =>
              [(instr.backward_id_key, [c.pk]),
               (instr.forward_id_key, [rid])]))).flatten)).map (fun p => p.1) :=
  ⟨take_from_origin_m2m_eq store stf mc fn d intents,
   create_m2m_replicate oracle stf om mc ci instr c n store2 hfl1 hfl2 hcop
     hlist⟩

/-- C9, witness: with two scope entities (A 1 linked to B 50, A 2
unlinked) the first intent accumulates two identical pending
instructions, and executing an intent carrying those two instructions
creates two identical junction rows for the single original link. -/
theorem c9_witness :
    (evaluate_take_from_origin_field_values ex9_store [] "A" "bs"
        (some (.manyToMany ex9_descr)) ex9_intents
      = .ok [⟨⟨1, [("x", [0])]⟩, [],
             List.replicate 2 (m2m_instruction "bs" ex9_descr "A" [50]),
             none⟩,
             ⟨⟨2, [("x", [0])]⟩, [], [], none⟩]) ∧
    (create_m2m_relations_for_update_to_copied acceptAll [] [] "A"
        [⟨⟨1, [("x", [0])]⟩, [],
          List.replicate 2 (m2m_instruction "bs" ex9_descr "A" [50]),
          some ⟨300, []⟩⟩] ex9_store
      = .ok ⟨[("A", [⟨1, [("x", [0])]⟩, ⟨2, [("x", [0])]⟩]),
             ("A_B", [⟨100, [("a_id", [1]), ("b_id", [50])]⟩,
                      ⟨200, [("a_id", [300]), ("b_id", [50])]⟩,
                      ⟨201, [("a_id", [300]), ("b_id", [50])]⟩])], 202⟩) := by
  have h := c9_m2m_instruction_multiplication ex9_store [] "A" "bs"
    ex9_descr ex9_intents acceptAll []
    ⟨⟨1, [("x", [0])]⟩, [],
      List.replicate 2 (m2m_instruction "bs" ex9_descr "A" [50]),
      some ⟨300, []⟩⟩
    (m2m_instruction "bs" ex9_descr "A" [50]) ⟨300, []⟩ 1 ex9_store
    rfl rfl rfl rfl
  exact ⟨h.1.trans (by decide), h.2.trans (by decide)⟩

/-- C4, counterexample to the claim as stated: the first submission of the
set-to-filter-miss scenario aborts `NOT_MATCHED` with the reference-map
entry `(10, none)` as claimed, and the confirmed resubmission with that
same map attached proceeds and reports success — but the store afterwards
is unchanged: no copy of the affected origin entity exists at all, with
the relation set to `none` or otherwise. -/
theorem c4_counterexample :
    ((execute_copy_request acceptAll ex4_store
        (copyistInit ex4_request1)).2.2.2
      = .ok { is_copy_successful := false, output_map := none,
              ignored_map := [], set_to_filter_map := ex4_fresh_stf,
              reason := some .NOT_MATCHED }) ∧
    ((execute_copy_request acceptAll ex4_store
        (copyistInit ex4_request2)).2.2.2
      = .ok { is_copy_successful := true, output_map := some [],
              ignored_map := [], set_to_filter_map := ex4_fresh_stf,
              reason := none }) ∧
    ((execute_copy_request acceptAll ex4_store
        (copyistInit ex4_request2)).2.1 = ex4_store) :=
  ⟨rfl, rfl, rfl⟩

/-- C4, amended claim: a `SET_TO_FILTER` destination miss makes the
unconfirmed submission abort `NOT_MATCHED`; resubmitting with
`confirm_write = true`, the reported (unchanged) reference map and an
empty ignored map passes the gate — but during the execution pass every
intent whose to-one `SET_TO_FILTER` origin value is unresolved (`none` in
the map) is dropped by the field-evaluation loop, so no copy of the
affected origin entity is produced, rather than a copy with the relation
set to `none`/absent. -/
theorem c4_set_to_filter_miss_then_confirm (stf prior : SetToFilterMap)
    (hmiss : isMissingValuesInSetToFilterMap stf = true)
    (heq : setToFilterMapEq prior stf = true) :
    gateAbortReason false none none stf [] = some .NOT_MATCHED ∧
    gateAbortReason true (some prior) (some []) stf [] = none ∧
    (∀ (id_field_name : String) (fm : FieldSetToFilterMap)
        (referenced_model field_name : String)
        (intents res : List CopyIntent) (e : Entity) (rid : Nat),
      set_to_filter_to_one_loop id_field_name (some fm) referenced_model
          field_name intents = .ok res →
      getScalar e id_field_name = some rid →
      dictLookup fm rid = some none →
      ∀ ci' ∈ res, ci'.origin ≠ e) := by
  refine ⟨?_, ?_, ?_⟩
  · simp [gateAbortReason, hmiss]
  · simp [gateAbortReason, hmiss, heq, ignoredMapEq, dictEqBy]
  · intro id_field_name fm referenced_model field_name intents res e rid
      hloop hscalar hnone ci' hm hcon
    exact set_to_filter_to_one_loop_drop id_field_name fm referenced_model
      field_name intents res hloop ci' hm rid (by rw [hcon, hscalar]) hnone

/-- C4, witness: the amended theorem applied to the reported map
`[("Doc", [("ref", [(10, none)])])]` and to a concrete loop run in which
the intent referencing the unresolved id 10 is dropped while the intent
referencing the resolved id 11 survives. -/
theorem c4_witness :
    gateAbortReason false none none ex4_fresh_stf [] = some .NOT_MATCHED ∧
    gateAbortReason true (some ex4_fresh_stf) (some []) ex4_fresh_stf []
      = none ∧
    (⟨⟨6, [("r_id", [11])]⟩, [("r_id", [20])], [], none⟩ : CopyIntent).origin
      ≠ (⟨5, [("r_id", [10])]⟩ : Entity) := by
  have h := c4_set_to_filter_miss_then_confirm ex4_fresh_stf ex4_fresh_stf
    (by decide) (by decide)
  refine ⟨h.1, h.2.1, ?_⟩
  exact h.2.2 "r_id" [(10, none), (11, some 20)] "Tgt" "r"
    [⟨⟨5, [("r_id", [10])]⟩, [], [], none⟩,
     ⟨⟨6, [("r_id", [11])]⟩, [], [], none⟩]
    [⟨⟨6, [("r_id", [11])]⟩, [("r_id", [20])], [], none⟩]
    ⟨5, [("r_id", [10])]⟩ 10 rfl rfl rfl
    (⟨⟨6, [("r_id", [11])]⟩, [("r_id", [20])], [], none⟩ : CopyIntent)
    (by simp)

theorem qor_qEmpty_left (b : QExpr) : qor .qEmpty b = b := by
  cases b <;> rfl

theorem evalQ_qand (p q : QExpr) (e : Entity) :
    evalQ (qand p q) e = (evalQ p e && evalQ q e) := by
  cases p <;> cases q <;> simp [qand, evalQ]

theorem qTruthy_qForRawKey (k : String) (ids : List Nat) :
    qTruthy (qForRawKey k ids) = true := by
  unfold qForRawKey
  split <;> rfl

/-- C7: (a) when a node's ignore condition names a `SET_TO_FILTER` field
of a child model whose reference map holds unresolved (`none`) entries,
every scope entity matching the unmatched-id filter lands in the ignored
map for the node's model; (b) an entity whose pk is in the ignored map
for a model is never selected by a query that applies the ignored map to
its extra filters; (c) a child entity whose parent-relation value is an
excluded parent's pk fails the child scope filter built from the selected
parent ids, so it is never reached. -/
theorem c7_ignore_propagation (store : Store) (input_data : InputData)
    (model_config : ModelCopyConfig) (stf : SetToFilterMap)
    (cond : IgnoreFilter) (f : Option IgnoreFunc)
    (group : ModelFieldMaps) (fm : FieldSetToFilterMap)
    (ignored_map : IgnoredMap) (a : Entity) (mname : String)
    (ids : List Nat) (im : IgnoredMap)
    (hcond : model_config.ignore_condition
      = some { filter_conditions := [cond], ignore_func := f })
    (hgroup : dictLookup stf cond.set_to_filter_origin_model = some group)
    (hfm : dictLookup group cond.set_to_filter_field_name = some fm)
    (hfm_ne : fm.isEmpty = false)
    (hU_ne : ((fm.filter (fun kv => kv.2.isNone)).map
      (fun kv => kv.1)).isEmpty = false)
    (ha_sel : a ∈ get_instances_for_model_config store input_data
      model_config (some (qForRawKey cond.filter_name
        ((fm.filter (fun kv => kv.2.isNone)).map (fun kv => kv.1)))))
    (hids : dictLookup im mname = some ids) :
    (∃ pks, evaluate_ignored store input_data model_config stf none
        ignored_map
      = .ok (dictInsert ignored_map model_config.model pks) ∧ a.pk ∈ pks) ∧
    (∀ (cfg : ModelCopyConfig) (ef : Option QExpr) (b : Entity),
      b.pk ∈ ids →
      b ∉ get_instances_for_model_config store input_data cfg
        (apply_ignored_to_extra_filters im mname ef)) ∧
    (∀ (subcfg : ModelCopyConfig) (rel : String) (sel : List Nat)
        (pk0 : Nat) (c : Entity),
      pk0 ∉ sel → getAttr c rel = [pk0] →
      c ∉ get_instances_for_model_config store input_data subcfg
        (some (.qIn rel sel))) := by
  refine ⟨?_, ?_, ?_⟩
  · -- (a) the unmatched-reference ignore condition lands a in the map
    have hfilter : ignore_filter_of stf [cond] .qEmpty
        = .ok (qForRawKey cond.filter_name
            ((fm.filter (fun kv => kv.2.isNone)).map (fun kv => kv.1))) := by
      simp only [ignore_filter_of, hgroup, hfm, hfm_ne, Bool.false_eq_true,
        if_false, hU_ne, qor_qEmpty_left]
    have hbyf : evaluate_ignored_by_filters store input_data model_config
        stf none
        = .ok (get_instances_for_model_config store input_data model_config
            (some (qForRawKey cond.filter_name
              ((fm.filter (fun kv => kv.2.isNone)).map (fun kv => kv.1))))) := by
      unfold evaluate_ignored_by_filters
      rw [hcond]
      dsimp only
      rw [hfilter]
      simp [qTruthy_qForRawKey]
    unfold evaluate_ignored
    rw [hcond]
    dsimp only
    rw [hbyf]
    have hne : (get_instances_for_model_config store input_data model_config
        (some (qForRawKey cond.filter_name
          ((fm.filter (fun kv => kv.2.isNone)).map
            (fun kv => kv.1))))).isEmpty = false := by
      cases hl : get_instances_for_model_config store input_data model_config
          (some (qForRawKey cond.filter_name
            ((fm.filter (fun kv => kv.2.isNone)).map (fun kv => kv.1)))) with
      | nil => rw [hl] at ha_sel; exact absurd ha_sel (List.not_mem_nil a)
      | cons x xs => rfl
    refine ⟨((get_instances_for_model_config store input_data model_config
      (some (qForRawKey cond.filter_name
        ((fm.filter (fun kv => kv.2.isNone)).map (fun kv => kv.1))))).map
      (fun x => x.pk)).dedup, ?_, ?_⟩
    · simp [Except.map, hne]
    · exact List.mem_dedup.mpr (List.mem_map.mpr ⟨a, ha_sel, rfl⟩)
  · -- (b) an ignored pk is excluded from the node selection
    intro cfg ef b hbpk hmem
    unfold get_instances_for_model_config get_queryset_for_model_config
      Store.filterRows at hmem
    have hp := (List.mem_filter.mp hmem).2
    unfold apply_ignored_to_extra_filters at hp
    rw [hids] at hp
    simp only [Bool.and_eq_true] at hp
    have h3 := hp.2
    have hnot : evalQ (.qNot (.qIn "id" ids)) b = true := by
      cases ef with
      | none => exact h3
      | some q =>
        dsimp only at h3
        by_cases hq : qTruthy q
        · rw [if_pos hq, evalQ_qand, Bool.and_eq_true] at h3
          exact h3.1
        · rw [if_neg hq] at h3
          exact h3
    simp only [evalQ, getAttr, beq_self_eq_true, if_true, List.any_cons,
      List.any_nil, Bool.or_false, Bool.not_eq_true'] at hnot
    have hnin : b.pk ∉ ids := by simpa using hnot
    exact hnin hbpk
  · -- (c) a child reached only through an excluded parent fails the scope
    intro subcfg rel sel pk0 c hnin hattr hmem
    unfold get_instances_for_model_config get_queryset_for_model_config
      Store.filterRows at hmem
    have hp := (List.mem_filter.mp hmem).2
    simp only [Bool.and_eq_true] at hp
    have h3 := hp.2
    rw [show evalQ (.qIn rel sel) c = sel.contains pk0 from by
      simp [evalQ, hattr]] at h3
    exact hnin (by simpa using h3)

/-- C7, witness: in the ignore-propagation scenario (A 1 reaches the
unmatched node 10 through B 5), A 1 is excluded from the confirmed run's
selection of model `A`, and its child B 5 fails the child scope filter
over the surviving parent id 2. -/
theorem c7_witness :
    ((⟨1, [("scenario_id", [1]), ("name", [7]), ("bs__node", [10])]⟩ : Entity)
      ∉ get_instances_for_model_config ex7_store ex7_input ex7_config
        (apply_ignored_to_extra_filters [("A", [1])] "A" none)) ∧
    ((⟨5, [("a_id", [1]), ("node_id", [10])]⟩ : Entity)
      ∉ get_instances_for_model_config ex7_store ex7_input ex7_child_config
        (some (.qIn "a_id" [2]))) := by
  have h := c7_ignore_propagation ex7_store ex7_input ex7_config
    [("B", [("node", [(10, none), (11, some 20)])])]
    { filter_name := "bs__node__in", set_to_filter_origin_model := "B",
      set_to_filter_field_name := "node" } none
    [("node", [(10, none), (11, some 20)])] [(10, none), (11, some 20)]
    [] ⟨1, [("scenario_id", [1]), ("name", [7]), ("bs__node", [10])]⟩
    "A" [1] [("A", [1])]
    rfl rfl rfl rfl rfl (by decide) rfl
  exact ⟨h.2.1 ex7_config none
      ⟨1, [("scenario_id", [1]), ("name", [7]), ("bs__node", [10])]⟩
      (by decide),
    h.2.2 ex7_child_config "a_id" [2] 1
      ⟨5, [("a_id", [1]), ("node_id", [10])]⟩ (by decide) rfl⟩

end DjangoCopyist
